import Mathlib

/-!
Verification of the LinkedIn post-consolidation extension core against its
specification.  The JavaScript sources are shallowly embedded: JS strings are
modelled as Lean `String`s (sequences of Unicode scalar values; the code under
study only manipulates BMP text), JS numbers as `ℚ` with `none : Option ℚ`
standing for `NaN`, DOM elements as finite trees with association-list
`querySelector` tables, and host facilities (current time, `Math.random`,
the `URL` parser, `Date` parsing/printing, the live DOM) as explicit
parameters.  Each embedded definition keeps the name of the source function
it models.  Definitions come first, then the lemmas and the claim theorems.
-/

namespace JsStr

/-- Character class of the JavaScript regex `\s` (and of `String.prototype.trim`):
TAB LF VT FF CR, space, NBSP, BOM, and the Unicode space separators. -/
def jsWhitespace (c : Char) : Bool :=
  c.toNat = 0x9 ∨ c.toNat = 0xA ∨ c.toNat = 0xB ∨ c.toNat = 0xC ∨ c.toNat = 0xD ∨
  c.toNat = 0x20 ∨ c.toNat = 0xA0 ∨ c.toNat = 0x1680 ∨
  (0x2000 ≤ c.toNat ∧ c.toNat ≤ 0x200A) ∨
  c.toNat = 0x2028 ∨ c.toNat = 0x2029 ∨ c.toNat = 0x202F ∨ c.toNat = 0x205F ∨
  c.toNat = 0x3000 ∨ c.toNat = 0xFEFF

/-- `String.prototype.trim`: strip leading and trailing JS whitespace. -/
def jsTrim (l : List Char) : List Char :=
  ((l.dropWhile jsWhitespace).reverse.dropWhile jsWhitespace).reverse

/-- `String.prototype.trim` on packed strings. -/
def jsTrimS (s : String) : String :=
  ⟨jsTrim s.data⟩

/-- `.replace(/\s+/g, ' ')`: every maximal run of JS whitespace becomes a
single ASCII space (the space is emitted at the final character of the run;
structural recursion on the tail keeps the function kernel-computable). -/
def collapseWs : List Char → List Char
  | [] => []
  | [c] => if jsWhitespace c then [' '] else [c]
  | c₁ :: c₂ :: rest =>
    if jsWhitespace c₁ then
      if jsWhitespace c₂ then collapseWs (c₂ :: rest)
      else ' ' :: collapseWs (c₂ :: rest)
    else c₁ :: collapseWs (c₂ :: rest)

/-- `.replace(/[\r\n\t]/g, ' ')`. -/
def replaceCrLfTab (l : List Char) : List Char :=
  l.map fun c => if c = '\r' ∨ c = '\n' ∨ c = '\t' then ' ' else c

/-- Character class kept by `.replace(/[^\x20-\x7E -￿]/g, '')`.
In JS the regex ranges over UTF-16 code units; both halves of a surrogate
pair fall in ` -￿`, so every scalar value `≥ 0xA0` survives. -/
def jsPrintable (c : Char) : Bool :=
  (0x20 ≤ c.toNat ∧ c.toNat ≤ 0x7E) ∨ 0xA0 ≤ c.toNat

/-- A list whose whitespace is already in normal form: every whitespace
character is an ASCII space and no two adjacent characters are both
whitespace. -/
def collapsedB : List Char → Bool
  | [] => true
  | [c] => !jsWhitespace c || c == ' '
  | c₁ :: c₂ :: rest =>
    (!jsWhitespace c₁ || c₁ == ' ') && !(jsWhitespace c₁ && jsWhitespace c₂) &&
      collapsedB (c₂ :: rest)

/-- Substring occurrence scan: does `sub` occur starting at some position? -/
def jsIncludesL (sub : List Char) : List Char → Bool
  | [] => sub.isEmpty
  | c :: rest => sub.isPrefixOf (c :: rest) || jsIncludesL sub rest

/-- `String.prototype.includes`: substring containment. -/
def jsIncludes (s sub : String) : Bool :=
  jsIncludesL sub.data s.data

/-- ASCII-level model of `String.prototype.toLowerCase` (the sources only
lower-case ASCII selector text, author names and metric suffixes). -/
def jsToLower (s : String) : String :=
  ⟨s.data.map Char.toLower⟩

/-- First-truthy semantics of the JS `||` operator on nullable strings
(`null`/`undefined` is `none`, the empty string is falsy). -/
def jsOrS (a b : Option String) : Option String :=
  match a with
  | some s => if s = "" then b else some s
  | none => b

/-- JS truthiness of a nullable string. -/
def jsTruthyS (a : Option String) : Bool :=
  match a with
  | some s => s ≠ ""
  | none => false

end JsStr

namespace DataFormatter

open JsStr

/-- `DataFormatter.sanitizeString`: trim, collapse whitespace runs to single
spaces, replace CR/LF/TAB by spaces, drop characters outside the printable
range, and truncate to 10,000 characters.  A falsy input (empty string)
yields `""`. -/
def sanitizeString (s : String) : String :=
  if s = "" then ""
  else ⟨(replaceCrLfTab (collapseWs (jsTrim s.data))).filter jsPrintable |>.take 10000⟩

end DataFormatter

namespace JsStr

/-- Numeric value of an ASCII digit. -/
def digitVal (c : Char) : Nat := c.toNat - 48

/-- Value of a digit string read in base 10. -/
def natOfDigits (l : List Char) : Nat := l.foldl (fun a c => a * 10 + digitVal c) 0

/-- Value of the fractional digit string after a decimal point. -/
def fracOfDigits (l : List Char) : ℚ := l.foldr (fun c a => ((digitVal c : Nat) + a) / 10) 0

/-- Exponent digits of a decimal literal (empty digit run contributes 0,
as in `parseFloat("1e")`). -/
def expDigits (t : List Char) : ℤ :=
  match t with
  | '-' :: u =>
    if u.takeWhile Char.isDigit = [] then 0 else -(natOfDigits (u.takeWhile Char.isDigit) : ℤ)
  | '+' :: u =>
    if u.takeWhile Char.isDigit = [] then 0 else (natOfDigits (u.takeWhile Char.isDigit) : ℤ)
  | u =>
    if u.takeWhile Char.isDigit = [] then 0 else (natOfDigits (u.takeWhile Char.isDigit) : ℤ)

/-- Exponent part of a decimal literal. -/
def expOf (l : List Char) : ℤ :=
  match l with
  | 'e' :: t => expDigits t
  | 'E' :: t => expDigits t
  | _ => 0

/-- Model of the host `parseFloat`: longest decimal-literal prefix after
leading whitespace and an optional sign; `none` is `NaN`.  (The `Infinity`
literal, never produced by the code under study, is not modelled.)
Values are exact rationals; the inputs the sources feed in have short
decimal expansions, where IEEE rounding does not change `Math.round`. -/
def parseFloatQ (s : String) : Option ℚ :=
  let l := s.data.dropWhile jsWhitespace
  let sl : ℚ × List Char :=
    match l with
    | '-' :: t => (-1, t)
    | '+' :: t => (1, t)
    | _ => (1, l)
  let ds := sl.2.takeWhile Char.isDigit
  let r1 := sl.2.dropWhile Char.isDigit
  let fr : List Char × List Char :=
    match r1 with
    | '.' :: t => (t.takeWhile Char.isDigit, t.dropWhile Char.isDigit)
    | _ => ([], r1)
  if ds = [] ∧ fr.1 = [] then none
  else some (sl.1 * ((natOfDigits ds : Nat) + fracOfDigits fr.1) * (10 : ℚ) ^ expOf fr.2)

/-- Model of the host `parseInt(·, 10)`: longest digit prefix after leading
whitespace and an optional sign; `none` is `NaN`. -/
def parseIntQ (s : String) : Option ℤ :=
  let l := s.data.dropWhile jsWhitespace
  match l with
  | '-' :: t =>
    if t.takeWhile Char.isDigit = [] then none
    else some (-(natOfDigits (t.takeWhile Char.isDigit) : ℤ))
  | '+' :: t =>
    if t.takeWhile Char.isDigit = [] then none
    else some ((natOfDigits (t.takeWhile Char.isDigit) : ℤ))
  | _ =>
    if l.takeWhile Char.isDigit = [] then none
    else some ((natOfDigits (l.takeWhile Char.isDigit) : ℤ))

/-- `Math.round`: nearest integer, half toward positive infinity. -/
def jsRound (q : ℚ) : ℤ := ⌊q + 1 / 2⌋

/-- A JavaScript value as fed to `parseNumber`. -/
inductive JSVal where
  | num (q : ℚ)
  | str (s : String)
  | null
  | undefined

end JsStr

namespace DataFormatter

open JsStr

/-- `String(value).toLowerCase().replace(/,/g, '')`. -/
def cleanNum (s : String) : String :=
  ⟨(jsToLower s).data.filter (fun c => c ≠ ',')⟩

/-- `DataFormatter.parseNumber`: numbers pass through; falsy input is 0;
strings are lower-cased, comma-stripped, scaled by a contained k/m/b
multiplier applied to `parseFloat` and rounded, else `parseInt`-ed with
`NaN` mapped to 0.  `none` is `NaN` (reachable: a k/m/b string whose body
has no leading float). -/
def parseNumber (v : JSVal) : Option ℚ :=
  match v with
  | .num q => some q
  | .null => some 0
  | .undefined => some 0
  | .str s =>
    if s = "" then some 0
    else
      let str : String := cleanNum s
      if str.data.contains 'k' then
        (parseFloatQ str).map fun q => ((jsRound (q * 1000) : ℤ) : ℚ)
      else if str.data.contains 'm' then
        (parseFloatQ str).map fun q => ((jsRound (q * 1000000) : ℤ) : ℚ)
      else if str.data.contains 'b' then
        (parseFloatQ str).map fun q => ((jsRound (q * 1000000000) : ℤ) : ℚ)
      else
        match parseIntQ str with
        | some n => some (n : ℚ)
        | none => some 0

/-- Media slot of a record as read (with optional chaining) by
`determinePostType`, generic in the array element type. -/
structure PTMedia (α : Type) where
  videos : Option (List α)
  images : Option (List α)
  documents : Option (List α)

/-- Content slot of a record as read by `determinePostType`. -/
structure PTContent where
  text : Option String

/-- The part of a post record `determinePostType` inspects. -/
structure PTView (α : Type) where
  media : Option (PTMedia α)
  content : Option PTContent

/-- `postData.media?.videos?.length > 0` (undefined compares false). -/
def hasVideos (p : PTView α) : Bool :=
  match p.media with
  | some m => match m.videos with
    | some v => decide (0 < v.length)
    | none => false
  | none => false

/-- `postData.media?.images?.length > 1`. -/
def manyImages (p : PTView α) : Bool :=
  match p.media with
  | some m => match m.images with
    | some v => decide (1 < v.length)
    | none => false
  | none => false

/-- `postData.media?.images?.length === 1`. -/
def oneImage (p : PTView α) : Bool :=
  match p.media with
  | some m => match m.images with
    | some v => decide (v.length = 1)
    | none => false
  | none => false

/-- `postData.media?.documents?.length > 0`. -/
def hasDocuments (p : PTView α) : Bool :=
  match p.media with
  | some m => match m.documents with
    | some v => decide (0 < v.length)
    | none => false
  | none => false

/-- `postData.content?.text?.includes('poll')` (case-sensitive). -/
def mentionsPoll (p : PTView α) : Bool :=
  match p.content with
  | some c => match c.text with
    | some t => jsIncludes t "poll"
    | none => false
  | none => false

/-- `DataFormatter.determinePostType`: fixed precedence
video → carousel → image → document → poll → text. -/
def determinePostType (p : PTView α) : String :=
  if hasVideos p then "video"
  else if manyImages p then "carousel"
  else if oneImage p then "image"
  else if hasDocuments p then "document"
  else if mentionsPoll p then "poll"
  else "text"

/-- JS `a || d` for a possibly-absent string with a string default. -/
def jsOrD (a : Option String) (d : String) : String :=
  match a with
  | some s => if s = "" then d else s
  | none => d

/-- `DataFormatter.formatUrl`: root-relative paths are grafted onto the
LinkedIn origin; the host `URL` parser (passed in as `urlOk`) validates the
result; anything invalid or falsy maps to `""`. -/
def formatUrl (urlOk : String → Bool) (url : Option String) : String :=
  match url with
  | none => ""
  | some u =>
    if u = "" then ""
    else
      let u2 := if u.data.head? = some '/' then "https://www.linkedin.com" ++ u else u
      if urlOk u2 then u2 else ""

/-- Raw author bag as the formatter reads it (absent properties are `none`). -/
structure RawAuthor where
  name : Option String
  title : Option String
  profile : Option String
  image : Option String
  company : Option String

/-- Formatted author record.  The falsy-input branch of the source returns an
object without `title`/`company`, modelled by `none`. -/
structure FormattedAuthor where
  name : String
  profile : String
  image : String
  title : Option String
  company : Option String

/-- `DataFormatter.formatAuthorData`. -/
def formatAuthorData (urlOk : String → Bool) (a : Option RawAuthor) : FormattedAuthor :=
  match a with
  | none => { name := "Unknown", profile := "", image := "", title := none, company := none }
  | some ad =>
    { name := sanitizeString (jsOrD ad.name "Unknown")
      profile := formatUrl urlOk ad.profile
      image := formatUrl urlOk ad.image
      title := some (sanitizeString (jsOrD ad.title ""))
      company := some (sanitizeString (jsOrD ad.company "")) }

end DataFormatter

namespace Dom

open JsStr

/-- A DOM element as the extractor sees it: attributes, a `querySelector`
table, a `querySelectorAll` table, whether `getAttribute` exists (jest mocks
may lack it), whether `querySelector` throws (the repository mocks one that
does), text content, and `href`/`src` properties. -/
inductive DomE where
  | mk (attrs : List (String × String)) (qs : List (String × DomE))
       (qsAll : List (String × List DomE)) (hasGetAttr : Bool) (qThrows : Bool)
       (text : String) (href : Option String) (src : Option String)

def DomE.attrs : DomE → List (String × String)
  | .mk a _ _ _ _ _ _ _ => a

def DomE.qs : DomE → List (String × DomE)
  | .mk _ q _ _ _ _ _ _ => q

def DomE.qsAll : DomE → List (String × List DomE)
  | .mk _ _ q _ _ _ _ _ => q

def DomE.hasGetAttr : DomE → Bool
  | .mk _ _ _ g _ _ _ _ => g

def DomE.qThrows : DomE → Bool
  | .mk _ _ _ _ t _ _ _ => t

def DomE.textContent : DomE → String
  | .mk _ _ _ _ _ s _ _ => s

def DomE.href : DomE → Option String
  | .mk _ _ _ _ _ _ h _ => h

def DomE.src : DomE → Option String
  | .mk _ _ _ _ _ _ _ s => s

/-- `element.querySelector(sel)`; raises when the element's
`querySelector` is mocked to throw. -/
def querySelE (e : DomE) (sel : String) : Except Unit (Option DomE) :=
  if e.qThrows then .error () else .ok (e.qs.lookup sel)

/-- `element.querySelectorAll(sel)` (an unknown selector matches nothing). -/
def querySelAllE (e : DomE) (sel : String) : Except Unit (List DomE) :=
  if e.qThrows then .error () else .ok ((e.qsAll.lookup sel).getD [])

/-- `element.getAttribute(name)`; raises when the element (a partial mock)
has no `getAttribute` method. -/
def getAttributeE (e : DomE) (name : String) : Except Unit (Option String) :=
  if e.hasGetAttr then .ok (e.attrs.lookup name) else .error ()

end Dom

namespace LinkedInSelectors

open JsStr Dom

/-- A value held by a field of the selector tables: a JS array of selector
strings, or a nested plain object of further fields (`contentSelectors`
itself is one). -/
inductive SelTree where
  | arr (ss : List String)
  | obj (fields : List (String × SelTree))

/-- `contentSelectors.postUrl`. -/
def postUrlSelectors : List String :=
  [".feed-shared-control-menu__trigger",
   ".feed-shared-actor__container-link",
   "a[href*=\"/posts/\"]"]

/-- `contentSelectors.text`. -/
def textSelectors : List String :=
  [".feed-shared-text .break-words",
   ".feed-shared-update-v2__description .break-words",
   ".feed-shared-text__text-view",
   ".feed-shared-inline-show-more-text .break-words"]

/-- `this.contentSelectors`, the full table: its keys are `text`, `author`,
`metrics`, `media`, `timestamp` and `postUrl` — there is no `content` key. -/
def contentSelectors : SelTree :=
  .obj
    [("text", .arr textSelectors),
     ("author", .obj
       [("name", .arr
         [".feed-shared-actor__name .visually-hidden",
          ".feed-shared-actor__name",
          ".update-components-actor__name .visually-hidden",
          ".update-components-actor__name"]),
        ("profile", .arr
         [".feed-shared-actor__container-link",
          ".update-components-actor__container .app-aware-link",
          ".feed-shared-actor a[href*=\"/in/\"]"]),
        ("image", .arr
         [".feed-shared-actor__avatar .EntityPhoto-circle-3",
          ".feed-shared-actor__avatar img",
          ".update-components-actor__avatar img"])]),
     ("metrics", .obj
       [("likes", .arr
         [".social-counts-reactions__count",
          ".feed-shared-social-action-bar__reaction-count",
          "button[aria-label*=\"reaction\"] .visually-hidden"]),
        ("comments", .arr
         [".social-counts-comments .social-counts-comments__count",
          "button[aria-label*=\"comment\"] .visually-hidden",
          ".feed-shared-social-action-bar__comment-count"]),
        ("shares", .arr
         [".social-counts-shares .social-counts-shares__count",
          "button[aria-label*=\"repost\"] .visually-hidden",
          ".feed-shared-social-action-bar__repost-count"])]),
     ("media", .obj
       [("images", .arr
         [".feed-shared-image img",
          ".feed-shared-mini-update-v2 img",
          ".feed-shared-carousel__content img",
          ".update-components-image img"]),
        ("videos", .arr
         [".feed-shared-video video",
          ".feed-shared-mini-update-v2 video",
          ".update-components-video video"]),
        ("documents", .arr
         [".feed-shared-document",
          ".feed-shared-mini-update-v2__document",
          ".update-components-document"])]),
     ("timestamp", .arr
       [".feed-shared-actor__sub-description .visually-hidden",
        ".feed-shared-actor__sub-description time",
        ".update-components-actor__sub-description time",
        "time[datetime]"]),
     ("postUrl", .arr postUrlSelectors)]

/-- `this.postSelectors` (a plain array, not part of `contentSelectors`). -/
def postSelectors : List String :=
  ["div[data-id^=\"urn:li:activity\"]",
   ".feed-shared-update-v2",
   ".occludable-update",
   "article[data-id]"]

/-- `this.savedPostsSelectors`. -/
def savedPostsSelectors : SelTree :=
  .obj
    [("container", .arr
       [".saved-items", ".my-items-saved", "[data-view-name=\"saved-items\"]"]),
     ("posts", .arr
       [".saved-item", ".my-items-saved__item", ".saved-items__item"])]

/-- `this.navigationSelectors`. -/
def navigationSelectors : SelTree :=
  .obj
    [("savedPostsPage", .arr
       ["a[href*=\"/my-items/saved-posts/\"]", "a[href*=\"/saved/\"]"]),
     ("feedPage", .arr [".feed-container", ".scaffold-layout__main"])]

/-- `this.loadingSelectors`. -/
def loadingSelectors : SelTree :=
  .obj
    [("spinner", .arr
       [".feed-shared-update-v2__loader", ".artdeco-spinner", ".loading-spinner"]),
     ("loadMore", .arr
       [".scaffold-finite-scroll__load-button", ".feed-shared-update-v2__load-more"])]

/-- Property read `this[name]` for the selector-table fields the instance
carries (`postSelectors`, `contentSelectors`, `savedPostsSelectors`,
`navigationSelectors`, `loadingSelectors`); anything else is `undefined`. -/
def instanceField : String → Option SelTree
  | "postSelectors" => some (.arr postSelectors)
  | "contentSelectors" => some contentSelectors
  | "savedPostsSelectors" => some savedPostsSelectors
  | "navigationSelectors" => some navigationSelectors
  | "loadingSelectors" => some loadingSelectors
  | _ => none

/-- Property read `value[key]`: a key of a nested object resolves to its
value; an array has no such named properties (reading one is `undefined`). -/
def SelTree.get : SelTree → String → Option SelTree
  | .arr _, _ => none
  | .obj fs, k => fs.lookup k

/-- `subtype.split('.')`, accumulator style. -/
def splitDotAux : List Char → List Char → List (List Char)
  | [], acc => [acc.reverse]
  | c :: rest, acc =>
    if c = '.' then acc.reverse :: splitDotAux rest []
    else splitDotAux rest (c :: acc)

def splitDot (s : String) : List String :=
  (splitDotAux s.data []).map fun l => (⟨l⟩ : String)

/-- The dot-notation walk of `getAllSelectors`: starting from
`contentSelectors[type]`, follow each part; a missing field (or a start at
`undefined`, as happens for the nonexistent `content` key) yields `null`. -/
def walkParts : Option SelTree → List String → Option SelTree
  | cur, [] => cur
  | some t, p :: rest =>
    match t.get p with
    | some nxt => walkParts (some nxt) rest
    | none => none
  | none, _ :: _ => none

/-- A value handed to `querySelector` by `findElement`: a selector string,
or a non-string object (`Array.isArray` is false on it, so `getAllSelectors`
wraps it in a one-element array instead of spreading it). -/
inductive Sel where
  | str (s : String)
  | obj (t : SelTree)

/-- `Array.isArray(v) ? v : [v]`. -/
def arrayize : SelTree → List Sel
  | .arr ss => ss.map Sel.str
  | .obj fs => [Sel.obj (.obj fs)]

/-- `LinkedInSelectors.getAllSelectors(type, subtype)`: with a truthy
subtype, walk `contentSelectors[type]` by the dot-split parts; else (or when
the walk dies) fall back to `contentSelectors[type]`, then to the instance
field `this[type + 'Selectors']` — for `type = 'content'` the first two
miss (no `content` key) and the instance field is the whole
`contentSelectors` object, returned as `[contentSelectors]`. -/
def getAllSelectors (ty : String) (subty : Option String) : List Sel :=
  let fromSub : Option SelTree :=
    match subty with
    | some s => if s = "" then none else walkParts (contentSelectors.get ty) (splitDot s)
    | none => none
  match fromSub with
  | some t => arrayize t
  | none =>
    match contentSelectors.get ty with
    | some t => arrayize t
    | none =>
      match instanceField (ty ++ "Selectors") with
      | some t => arrayize t
      | none => []

/-- `container.querySelector(sel)` on a selector value: a non-string
argument is stringified to `"[object Object]"`, which no CSS engine parses
as a selector group, so the call throws (a DOMException) regardless of the
element. -/
def querySelValE (e : DomE) : Sel → Except Unit (Option DomE)
  | .str s => querySelE e s
  | .obj _ => .error ()

/-- `LinkedInSelectors.findElement(container, type, subtype)` with the list
from `getAllSelectors` already passed in: first selector with a
`querySelector` hit wins; a throwing `querySelector` propagates. -/
def findElement (container : DomE) : List Sel → Except Unit (Option DomE)
  | [] => .ok none
  | sel :: rest =>
    match querySelValE container sel with
    | .error u => .error u
    | .ok (some el) => .ok (some el)
    | .ok none => findElement container rest

/-- The regex `\/posts\/([^/?]+)` applied to a URL: first position where
`/posts/` is followed by at least one character that is neither `/` nor `?`;
the capture is that maximal run. -/
def postsUrlMatch : List Char → Option String
  | [] => none
  | c :: rest =>
    if "/posts/".data.isPrefixOf (c :: rest) then
      let cap := ((c :: rest).drop 7).takeWhile fun x => x ≠ '/' ∧ x ≠ '?'
      if cap = [] then postsUrlMatch rest else some ⟨cap⟩
    else postsUrlMatch rest

/-- ToInt32 (`hash & hash`, and the implicit int32 wrap of `<<`). -/
def toInt32 (n : ℤ) : ℤ :=
  let m := n % 4294967296
  if m < 2147483648 then m else m - 4294967296

/-- One step of `simpleHash`: `hash = ((hash << 5) - hash) + charCode`
followed by the int32 coercion `hash = hash & hash`. -/
def simpleHashStep (h : ℤ) (c : Nat) : ℤ :=
  toInt32 (toInt32 (h * 32) - h + c)

/-- The signed 32-bit accumulator of `LinkedInSelectors.simpleHash`. -/
def simpleHashInt (s : String) : ℤ :=
  s.data.foldl (fun h c => simpleHashStep h c.toNat) 0

/-- Base-36 digit (0-9 then a-z), as in `Number.prototype.toString(36)`. -/
def base36Char (n : Nat) : Char :=
  if n < 10 then Char.ofNat (48 + n) else Char.ofNat (87 + n)

/-- Fuel-based base-36 printer (fuel `n` suffices since `n / 36 < n`). -/
def natToBase36Aux : Nat → Nat → List Char → List Char
  | 0, _, acc => acc
  | fuel + 1, n, acc =>
    if n = 0 then acc else natToBase36Aux fuel (n / 36) (base36Char (n % 36) :: acc)

/-- `Math.abs(hash).toString(36)`. -/
def natToBase36 (n : Nat) : String :=
  if n = 0 then "0" else ⟨natToBase36Aux n n []⟩

/-- `LinkedInSelectors.simpleHash`. -/
def simpleHash (s : String) : String :=
  natToBase36 (simpleHashInt s).natAbs

/-- `LinkedInSelectors.getPostId`: `data-id` attribute if truthy; else it
asks `findElement(postElement, 'content', 'postUrl')` for a URL element to
match `\/posts\/([^/?]+)` against, then
`findElement(postElement, 'content', 'text')` for a text element to hash
into `'post_' + simpleHash(trimmed text)`, else null — but both
`findElement` calls resolve their selectors via
`getAllSelectors('content', …)`. -/
def getPostId (e : DomE) : Except Unit (Option String) :=
  match getAttributeE e "data-id" with
  | .error u => .error u
  | .ok dataId =>
    if jsTruthyS dataId then .ok dataId
    else
      match findElement e (getAllSelectors "content" (some "postUrl")) with
      | .error u => .error u
      | .ok urlElement =>
        let fromUrl : Option String :=
          match urlElement with
          | some uel =>
            match uel.href with
            | some h => if h ≠ "" then postsUrlMatch h.data else none
            | none => none
          | none => none
        match fromUrl with
        | some m => .ok (some m)
        | none =>
          match findElement e (getAllSelectors "content" (some "text")) with
          | .error u => .error u
          | .ok textElement =>
            match textElement with
            | some tel => .ok (some ("post_" ++ simpleHash (jsTrimS tel.textContent)))
            | none => .ok none

end LinkedInSelectors

namespace PostExtractor

open JsStr Dom

/-- `PostExtractor` settings (defaults: images and metrics on). -/
structure ExtractorSettings where
  extractImages : Bool := true
  extractMetrics : Bool := true
  extractComments : Bool := false

/-- Host context of one extraction call: `Date.now()`, the random suffix
`Math.random().toString(36).substr(2, 9)`, and `window.location?.href`. -/
structure ExtractorEnv where
  nowMs : ℤ
  rand : String
  locationHref : Option String

/-- `data-urn || data-id || data-activity-urn`. -/
def urnChain (e : DomE) : Option String :=
  jsOrS (jsOrS (e.attrs.lookup "data-urn") (e.attrs.lookup "data-id"))
    (e.attrs.lookup "data-activity-urn")

/-- The `post_${Date.now()}_${Math.random().toString(36).substr(2, 9)}`
fallback identifier. -/
def fallbackId (env : ExtractorEnv) : String :=
  "post_" ++ toString env.nowMs ++ "_" ++ env.rand

/-- `PostExtractor.generatePostId`: the URN attribute chain when the element
is a real DOM node and some attribute is truthy, else a time-and-random id. -/
def generatePostId (env : ExtractorEnv) (el : Option DomE) : String :=
  match el with
  | none => fallbackId env
  | some e =>
    if e.hasGetAttr = false then fallbackId env
    else
      match urnChain e with
      | some urn => if urn ≠ "" then urn else fallbackId env
      | none => fallbackId env

/-- `PostExtractor.generatePostUrl` (the unused `activityId` local of the
source is dropped). -/
def generatePostUrl (env : ExtractorEnv) (el : Option DomE) : String :=
  let id := generatePostId env el
  if jsIncludes id "urn:li:activity:" then
    "https://www.linkedin.com/feed/update/" ++ id
  else
    match env.locationHref with
    | some h => if h ≠ "" then h else "https://www.linkedin.com/feed/"
    | none => "https://www.linkedin.com/feed/"

def authorNameSelectors : List String :=
  [".feed-shared-actor__name",
   ".update-components-actor__name",
   ".feed-shared-actor__title",
   "[data-control-name=\"actor_name\"]"]

/-- The selector loop of `extractAuthorName`: first hit returns the
`.visually-hidden` child's trimmed text if present, else the element's
trimmed text; no hit returns `'Unknown'`. -/
def extractAuthorNameLoop (e : DomE) : List String → Except Unit String
  | [] => .ok "Unknown"
  | sel :: rest => do
    match ← querySelE e sel with
    | some el => do
      match ← querySelE el ".visually-hidden" with
      | some hidden => .ok (jsTrimS hidden.textContent)
      | none => .ok (jsTrimS el.textContent)
    | none => extractAuthorNameLoop e rest

/-- `PostExtractor.extractAuthorName`. -/
def extractAuthorName (e : DomE) : Except Unit String :=
  extractAuthorNameLoop e authorNameSelectors

def authorTitleSelectors : List String :=
  [".feed-shared-actor__description",
   ".update-components-actor__description",
   ".feed-shared-actor__sub-description"]

/-- `text.match(/\d+[mhd]/)` as a Boolean: some digit is immediately
followed by `m`, `h` or `d`. -/
def hasDigitUnit : List Char → Bool
  | [] => false
  | [_] => false
  | c :: d :: rest =>
    (c.isDigit && (d == 'm' || d == 'h' || d == 'd')) || hasDigitUnit (d :: rest)

/-- The selector loop of `extractAuthorTitle` (a found element whose text
fails the timestamp filter falls through to the next selector). -/
def extractAuthorTitleLoop (e : DomE) : List String → Except Unit String
  | [] => .ok ""
  | sel :: rest => do
    match ← querySelE e sel with
    | some el =>
      let text := jsTrimS el.textContent
      if text ≠ "" ∧ jsIncludes text "â€¢" = false ∧ hasDigitUnit text.data = false ∧
          jsIncludes text "ago" = false then
        .ok text
      else
        extractAuthorTitleLoop e rest
    | none => extractAuthorTitleLoop e rest

/-- `PostExtractor.extractAuthorTitle`. -/
def extractAuthorTitle (e : DomE) : Except Unit String :=
  extractAuthorTitleLoop e authorTitleSelectors

def authorProfileSelectors : List String :=
  [".feed-shared-actor__container-link",
   ".update-components-actor__container a",
   ".feed-shared-actor a[href*=\"/in/\"]",
   "a[href*=\"linkedin.com/in/\"]"]

/-- The selector loop of `extractAuthorProfileUrl` (`element && element.href`:
a hit with falsy `href` falls through). -/
def extractAuthorProfileUrlLoop (e : DomE) : List String → Except Unit String
  | [] => .ok ""
  | sel :: rest => do
    match ← querySelE e sel with
    | some el =>
      match el.href with
      | some h => if h ≠ "" then .ok h else extractAuthorProfileUrlLoop e rest
      | none => extractAuthorProfileUrlLoop e rest
    | none => extractAuthorProfileUrlLoop e rest

/-- `PostExtractor.extractAuthorProfileUrl`. -/
def extractAuthorProfileUrl (e : DomE) : Except Unit String :=
  extractAuthorProfileUrlLoop e authorProfileSelectors

/-- Raw author bag of `PostExtractor.extractAuthor`. -/
structure Author where
  name : String
  title : String
  profileUrl : String

/-- `PostExtractor.extractAuthor`. -/
def extractAuthor (e : DomE) : Except Unit Author := do
  let name ← extractAuthorName e
  let title ← extractAuthorTitle e
  let profileUrl ← extractAuthorProfileUrl e
  .ok { name, title, profileUrl }

/-- `PostExtractor.cleanContent`: trim and collapse whitespace runs. -/
def cleanContent (text : String) : String :=
  if text = "" then "" else ⟨collapseWs (jsTrim text.data)⟩

def contentSelectors : List String :=
  [".feed-shared-text",
   ".update-components-text",
   ".feed-shared-update-v2__description",
   "[data-test-id=\"main-feed-activity-card\"] .break-words"]

/-- The selector loop of `extractContent` (prefers the expanded
`see more` child). -/
def extractContentLoop (e : DomE) : List String → Except Unit String
  | [] => .ok ""
  | sel :: rest => do
    match ← querySelE e sel with
    | some el => do
      match ← querySelE el ".feed-shared-inline-show-more-text" with
      | some expanded => .ok (cleanContent expanded.textContent)
      | none => .ok (cleanContent el.textContent)
    | none => extractContentLoop e rest

/-- `PostExtractor.extractContent`. -/
def extractContent (e : DomE) : Except Unit String :=
  extractContentLoop e contentSelectors

/-- The regex `(\d+)([mhdwy]|mo)/i`: first position with a digit run whose
following character (case-folded) is in the class; the two-letter `mo`
alternative is dead because `m` already matches the class first. -/
def timeMatch : List Char → Option (Nat × String)
  | [] => none
  | c :: rest =>
    if c.isDigit then
      match rest.dropWhile Char.isDigit with
      | [] => timeMatch rest
      | u :: us =>
        if u.toLower = 'm' ∨ u.toLower = 'h' ∨ u.toLower = 'd' ∨ u.toLower = 'w' ∨
            u.toLower = 'y' then
          some (natOfDigits (c :: rest.takeWhile Char.isDigit), ⟨[u.toLower]⟩)
        else if u.toLower = 'm' ∧ us.head?.map Char.toLower = some 'o' then
          some (natOfDigits (c :: rest.takeWhile Char.isDigit), "mo")
        else timeMatch rest
    else timeMatch rest

/-- `PostExtractor.parseRelativeTime`, with `toISOString` rendered as the
epoch-millisecond value it prints: subtract `value` units from now, or
return now itself when nothing matches. -/
def parseRelativeTime (timeText : String) (nowMs : ℤ) : ℤ :=
  match timeMatch timeText.data with
  | some (v, unit) =>
    if unit = "m" then nowMs - v * 60 * 1000
    else if unit = "h" then nowMs - v * 60 * 60 * 1000
    else if unit = "d" then nowMs - v * 24 * 60 * 60 * 1000
    else if unit = "w" then nowMs - v * 7 * 24 * 60 * 60 * 1000
    else if unit = "mo" then nowMs - v * 30 * 24 * 60 * 60 * 1000
    else if unit = "y" then nowMs - v * 365 * 24 * 60 * 60 * 1000
    else nowMs
  | none => nowMs

/-- A timestamp as `extractTimestamp` returns it: either the raw `datetime`
attribute string or the ISO rendering of a computed epoch-ms value. -/
inductive TimestampV where
  | attr (s : String)
  | rel (ms : ℤ)

def timestampSelectors : List String :=
  ["time[datetime]",
   ".feed-shared-actor__sub-description time",
   ".update-components-actor__sub-description time",
   "[data-test-id=\"main-feed-activity-card\"] time"]

/-- The selector loop of `extractTimestamp`: a hit returns its truthy
`datetime` attribute, else the parsed relative label — unconditionally. -/
def extractTimestampLoop (env : ExtractorEnv) (e : DomE) :
    List String → Except Unit (Option TimestampV)
  | [] => .ok none
  | sel :: rest => do
    match ← querySelE e sel with
    | some el => do
      let dt ← getAttributeE el "datetime"
      match dt with
      | some d =>
        if d ≠ "" then .ok (some (.attr d))
        else .ok (some (.rel (parseRelativeTime (jsTrimS el.textContent) env.nowMs)))
      | none => .ok (some (.rel (parseRelativeTime (jsTrimS el.textContent) env.nowMs)))
    | none => extractTimestampLoop env e rest

/-- `PostExtractor.extractTimestamp`. -/
def extractTimestamp (env : ExtractorEnv) (e : DomE) : Except Unit (Option TimestampV) :=
  extractTimestampLoop env e timestampSelectors

/-- `PostExtractor.parseMetricNumber`: keep only digits, `.`, `,`, `K`, `M`,
`B`; a k/m/b multiplier scales the parsed float; else `parseInt` of the
separator-stripped text, `NaN` mapped to 0. -/
def parseMetricNumber (text : String) : Option ℚ :=
  if text = "" then some 0
  else
    let cleanText : String :=
      ⟨text.data.filter fun c =>
        c.isDigit ∨ c = '.' ∨ c = ',' ∨ c.toLower = 'k' ∨ c.toLower = 'm' ∨ c.toLower = 'b'⟩
    if (jsToLower cleanText).data.contains 'k' then
      (parseFloatQ cleanText).map fun q => ((jsRound (q * 1000) : ℤ) : ℚ)
    else if (jsToLower cleanText).data.contains 'm' then
      (parseFloatQ cleanText).map fun q => ((jsRound (q * 1000000) : ℤ) : ℚ)
    else if (jsToLower cleanText).data.contains 'b' then
      (parseFloatQ cleanText).map fun q => ((jsRound (q * 1000000000) : ℤ) : ℚ)
    else
      match parseIntQ ⟨cleanText.data.filter fun c => c ≠ ',' ∧ c ≠ '.'⟩ with
      | some n => some (n : ℚ)
      | none => some 0

def likesSelectors : List String :=
  [".social-counts-reactions__count",
   ".social-counts-reactions .social-counts-reactions__count",
   "[data-test-id=\"social-actions-bar\"] button[aria-label*=\"like\"]"]

def commentsSelectors : List String :=
  [".social-counts-comments",
   "[data-test-id=\"social-actions-bar\"] button[aria-label*=\"comment\"]"]

def sharesSelectors : List String :=
  [".social-counts-shares",
   "[data-test-id=\"social-actions-bar\"] button[aria-label*=\"share\"]"]

/-- Shared selector loop of `extractLikes`/`extractComments`/`extractShares`:
first hit's trimmed text through `parseMetricNumber`, default 0. -/
def extractMetricLoop (e : DomE) : List String → Except Unit (Option ℚ)
  | [] => .ok (some 0)
  | sel :: rest => do
    match ← querySelE e sel with
    | some el => .ok (parseMetricNumber (jsTrimS el.textContent))
    | none => extractMetricLoop e rest

/-- Raw metrics bag of `PostExtractor.extractMetrics`. -/
structure Metrics where
  likes : Option ℚ
  comments : Option ℚ
  shares : Option ℚ

/-- `PostExtractor.extractMetrics`. -/
def extractMetrics (e : DomE) : Except Unit Metrics := do
  let likes ← extractMetricLoop e likesSelectors
  let comments ← extractMetricLoop e commentsSelectors
  let shares ← extractMetricLoop e sharesSelectors
  .ok { likes, comments, shares }

/-- `PostExtractor.extractImages`: every `img[src]` whose `src` is truthy and
is neither a data URI nor the spacer placeholder. -/
def extractImages (e : DomE) : Except Unit (List String) := do
  let imgs ← querySelAllE e "img[src]"
  .ok (imgs.foldl
    (fun acc img =>
      match img.src with
      | some s =>
        if s ≠ "" ∧ jsIncludes s "data:image" = false ∧ jsIncludes s "spacer.gif" = false then
          acc ++ [s]
        else acc
      | none => acc)
    [])

/-- The raw record `extractPost` assembles. -/
structure PRecord where
  id : String
  url : String
  author : Author
  content : String
  timestamp : Option TimestampV
  metrics : Option Metrics
  images : Option (List String)

/-- The body of `extractPost`'s `try` block on a non-null element. -/
def extractPostE (settings : ExtractorSettings) (env : ExtractorEnv) (e : DomE) :
    Except Unit PRecord := do
  let author ← extractAuthor e
  let content ← extractContent e
  let timestamp ← extractTimestamp env e
  let metrics ← if settings.extractMetrics then do
      let m ← extractMetrics e
      pure (some m)
    else pure none
  let images ← if settings.extractImages then do
      let i ← extractImages e
      pure (some i)
    else pure none
  .ok { id := generatePostId env (some e), url := generatePostUrl env (some e),
        author, content, timestamp, metrics, images }

/-- `PostExtractor.extractPost`: one try/catch around the whole record; a
null element or any raised field-extractor error yields `null`. -/
def extractPost (settings : ExtractorSettings) (env : ExtractorEnv) (el : Option DomE) :
    Option PRecord :=
  match el with
  | none => none
  | some e =>
    match extractPostE settings env e with
    | .ok r => some r
    | .error _ => none

end PostExtractor

namespace DataFormatter

open JsStr

/-- Nonempty pieces of `split(/\s+/)` (maximal non-whitespace runs; the
empty boundary pieces JS produces are dropped by the callers' filters and
never occur in the sentiment lexicons). -/
def wordsAux : List Char → List Char → List String
  | [], cur => if cur.isEmpty then [] else [⟨cur.reverse⟩]
  | c :: rest, cur =>
    if jsWhitespace c then
      if cur.isEmpty then wordsAux rest []
      else ⟨cur.reverse⟩ :: wordsAux rest []
    else wordsAux rest (c :: cur)

/-- The word list of a string under `split(/\s+/)` plus nonempty filter. -/
def jsWords (s : String) : List String := wordsAux s.data []

/-- `DataFormatter.countWords`: `text.trim().split(/\s+/)` filtered to
nonempty words, counted. -/
def countWords (text : String) : Nat :=
  if text = "" then 0 else (jsWords (jsTrimS text)).length

/-- The character class `[\w\u00c0-\u024f\u1e00-\u1eff]` of the hashtag
and mention regexes (ASCII word characters plus two extended-Latin blocks). -/
def tagClassChar (c : Char) : Bool :=
  c.isDigit ∨ ('A' ≤ c ∧ c ≤ 'Z') ∨ ('a' ≤ c ∧ c ≤ 'z') ∨ c = '_' ∨
  (0xc0 ≤ c.toNat ∧ c.toNat ≤ 0x24f) ∨ (0x1e00 ≤ c.toNat ∧ c.toNat ≤ 0x1eff)

/-- Global matches of `mark` followed by one or more class characters.
(Scanning restarts one character after each match start; no later match can
begin inside a matched run because the class excludes `mark`.) -/
def tagMatches (mark : Char) : List Char → List String
  | [] => []
  | c :: rest =>
    if c = mark then
      if rest.takeWhile tagClassChar ≠ [] then
        (⟨mark :: rest.takeWhile tagClassChar⟩ : String) :: tagMatches mark rest
      else tagMatches mark rest
    else tagMatches mark rest

/-- JS `new Set(…)` spread: keep first occurrences in order. -/
def dedupFirstAux : List String → List String → List String
  | [], _ => []
  | x :: rest, seen =>
    if seen.contains x then dedupFirstAux rest seen
    else x :: dedupFirstAux rest (x :: seen)

def dedupFirst (l : List String) : List String := dedupFirstAux l []

/-- `DataFormatter.extractHashtags`: regex matches, lower-cased, deduplicated
preserving first occurrence. -/
def extractHashtags (text : String) : List String :=
  if text = "" then [] else dedupFirst ((tagMatches '#' text.data).map jsToLower)

/-- `DataFormatter.extractMentions`. -/
def extractMentions (text : String) : List String :=
  if text = "" then [] else dedupFirst ((tagMatches '@' text.data).map jsToLower)

/-- Case-insensitive prefix comparison (ASCII folding). -/
def isPrefixOfCI : List Char → List Char → Bool
  | [], _ => true
  | _ :: _, [] => false
  | a :: as, b :: bs => a.toLower == b.toLower && isPrefixOfCI as bs

/-- One position of the `https?:\/\/[^\s]+` test: scheme prefix followed
by at least one non-whitespace character. -/
def hasLinksAux : List Char → Bool
  | [] => false
  | c :: rest =>
    (isPrefixOfCI "https://".data (c :: rest) &&
      (match (c :: rest).drop 8 with | [] => false | d :: _ => !jsWhitespace d)) ||
    (isPrefixOfCI "http://".data (c :: rest) &&
      (match (c :: rest).drop 7 with | [] => false | d :: _ => !jsWhitespace d)) ||
    hasLinksAux rest

/-- `DataFormatter.hasLinks`. -/
def hasLinks (text : String) : Bool :=
  if text = "" then false else hasLinksAux text.data

def positiveWords : List String :=
  ["great", "excellent", "amazing", "wonderful", "fantastic", "love", "best", "awesome",
   "perfect", "outstanding"]

def negativeWords : List String :=
  ["bad", "terrible", "awful", "hate", "worst", "horrible", "disappointing", "failed",
   "problem", "issue"]

/-- `DataFormatter.analyzeSentiment`: lexicon counts over the lower-cased
whitespace-split words; strict majority decides, ties are neutral. -/
def analyzeSentiment (text : String) : String :=
  if text = "" then "neutral"
  else
    let words := jsWords (jsToLower text)
    let positiveCount := words.countP fun w => positiveWords.contains w
    let negativeCount := words.countP fun w => negativeWords.contains w
    if positiveCount > negativeCount then "positive"
    else if negativeCount > positiveCount then "negative"
    else "neutral"

/-- Formatted content record.  The falsy-input default of the source lacks
the `hasLinks`/`sentiment` properties, modelled by `none`. -/
structure FormattedContent where
  text : String
  wordCount : Nat
  characterCount : Nat
  hashtags : List String
  mentions : List String
  hasLinks : Option Bool
  sentiment : Option String

/-- `DataFormatter.formatContent`. -/
def formatContent (content : Option String) : FormattedContent :=
  match content with
  | none =>
    { text := "", wordCount := 0, characterCount := 0, hashtags := [], mentions := [],
      hasLinks := none, sentiment := none }
  | some s =>
    if s = "" then
      { text := "", wordCount := 0, characterCount := 0, hashtags := [], mentions := [],
        hasLinks := none, sentiment := none }
    else
      let cleanText := sanitizeString s
      { text := cleanText, wordCount := countWords cleanText,
        characterCount := cleanText.data.length, hashtags := extractHashtags cleanText,
        mentions := extractMentions cleanText, hasLinks := some (hasLinks cleanText),
        sentiment := some (analyzeSentiment cleanText) }

/-- Raw metrics bag as `formatMetrics` reads it. -/
structure RawMetrics where
  likes : JSVal
  comments : JSVal
  shares : JSVal
  views : JSVal
  reactions : Option (List (String × JSVal))

/-- Formatted metrics.  The falsy-input default of the source lacks the
`reactions` property, modelled by `none`. -/
structure FormattedMetrics where
  likes : Option ℚ
  comments : Option ℚ
  shares : Option ℚ
  views : Option ℚ
  reactions : Option (List (String × Option ℚ))
  engagementRate : Option ℚ

/-- `DataFormatter.formatReactions`. -/
def formatReactions (r : Option (List (String × JSVal))) : List (String × Option ℚ) :=
  match r with
  | none => []
  | some l => l.map fun p => (p.1, parseNumber p.2)

/-- `DataFormatter.calculateEngagementRate` on the already-parsed fields:
`round(((likes+comments+shares)/views)*100*100)/100` when `views > 0`
(a `NaN` view count compares false and yields 0; a `NaN` addend keeps the
rate `NaN`), else 0. -/
def calculateEngagementRate (likes comments shares views : Option ℚ) : Option ℚ :=
  match views with
  | some v =>
    if 0 < v then
      match likes, comments, shares with
      | some a, some b, some c => some (((jsRound ((a + b + c) / v * 100 * 100) : ℤ) : ℚ) / 100)
      | _, _, _ => none
    else some 0
  | none => some 0

/-- `DataFormatter.formatMetrics`. -/
def formatMetrics (m : Option RawMetrics) : FormattedMetrics :=
  match m with
  | none =>
    { likes := some 0, comments := some 0, shares := some 0, views := some 0,
      reactions := none, engagementRate := some 0 }
  | some mm =>
    { likes := parseNumber mm.likes, comments := parseNumber mm.comments,
      shares := parseNumber mm.shares, views := parseNumber mm.views,
      reactions := some (formatReactions mm.reactions),
      engagementRate := calculateEngagementRate (parseNumber mm.likes)
        (parseNumber mm.comments) (parseNumber mm.shares) (parseNumber mm.views) }

/-- A raw media entry: either a bare URL string or an object with the
properties the three array formatters read. -/
inductive RawMediaItem where
  | str (s : String)
  | obj (url : Option String) (alt : Option String) (width : Option ℚ) (height : Option ℚ)
        (thumbnail : Option String) (duration : Option ℚ) (title : Option String)
        (typ : Option String)

/-- Raw media bag. -/
structure RawMedia where
  images : Option (List RawMediaItem)
  videos : Option (List RawMediaItem)
  documents : Option (List RawMediaItem)

/-- `formatUrl(item.url || item)`: a bare string is used directly; an object
whose `url` is falsy falls back to the object itself, which `formatUrl`
rejects with a caught TypeError, yielding `""`. -/
def mediaUrlOf (urlOk : String → Bool) : RawMediaItem → String
  | .str s => formatUrl urlOk (some s)
  | .obj url _ _ _ _ _ _ _ =>
    match url with
    | some u => if u ≠ "" then formatUrl urlOk (some u) else ""
    | none => ""

def mediaAltOf : RawMediaItem → Option String
  | .str _ => none
  | .obj _ alt _ _ _ _ _ _ => alt

def mediaWidthOf : RawMediaItem → Option ℚ
  | .str _ => none
  | .obj _ _ w _ _ _ _ _ => w

def mediaHeightOf : RawMediaItem → Option ℚ
  | .str _ => none
  | .obj _ _ _ h _ _ _ _ => h

def mediaThumbnailOf : RawMediaItem → Option String
  | .str _ => none
  | .obj _ _ _ _ t _ _ _ => t

def mediaDurationOf : RawMediaItem → Option ℚ
  | .str _ => none
  | .obj _ _ _ _ _ d _ _ => d

def mediaTitleOf : RawMediaItem → Option String
  | .str _ => none
  | .obj _ _ _ _ _ _ t _ => t

def mediaTypeOf : RawMediaItem → Option String
  | .str _ => none
  | .obj _ _ _ _ _ _ _ ty => ty

/-- `value || null` on an optional number (0 is falsy). -/
def jsOrNullNum (a : Option ℚ) : Option ℚ :=
  match a with
  | some q => if q = 0 then none else some q
  | none => none

structure FImage where
  url : String
  alt : String
  width : Option ℚ
  height : Option ℚ

structure FVideo where
  url : String
  thumbnail : String
  duration : Option ℚ
  title : String

structure FDoc where
  url : String
  title : String
  typ : String

/-- `DataFormatter.formatImageArray`. -/
def formatImageArray (urlOk : String → Bool) (images : Option (List RawMediaItem)) :
    List FImage :=
  match images with
  | none => []
  | some l =>
    (l.enum.map fun p =>
      ({ url := mediaUrlOf urlOk p.2,
         alt := sanitizeString (jsOrD (mediaAltOf p.2) ("Image " ++ toString (p.1 + 1))),
         width := jsOrNullNum (mediaWidthOf p.2),
         height := jsOrNullNum (mediaHeightOf p.2) } : FImage)).filter fun img => img.url ≠ ""

/-- `DataFormatter.formatVideoArray`. -/
def formatVideoArray (urlOk : String → Bool) (videos : Option (List RawMediaItem)) :
    List FVideo :=
  match videos with
  | none => []
  | some l =>
    (l.enum.map fun p =>
      ({ url := mediaUrlOf urlOk p.2,
         thumbnail := formatUrl urlOk (mediaThumbnailOf p.2),
         duration := jsOrNullNum (mediaDurationOf p.2),
         title := sanitizeString (jsOrD (mediaTitleOf p.2) ("Video " ++ toString (p.1 + 1)))
       } : FVideo)).filter fun v => v.url ≠ ""

/-- `DataFormatter.formatDocumentArray`. -/
def formatDocumentArray (urlOk : String → Bool) (documents : Option (List RawMediaItem)) :
    List FDoc :=
  match documents with
  | none => []
  | some l =>
    (l.enum.map fun p =>
      ({ url := mediaUrlOf urlOk p.2,
         title := sanitizeString (jsOrD (mediaTitleOf p.2) ("Document " ++ toString (p.1 + 1))),
         typ := jsOrD (mediaTypeOf p.2) "unknown" } : FDoc)).filter fun d => d.url ≠ ""

/-- `DataFormatter.hasAnyMedia`. -/
def hasAnyMedia (m : Option RawMedia) : Bool :=
  match m with
  | none => false
  | some mm =>
    (match mm.images with | some l => !l.isEmpty | none => false) ||
    (match mm.videos with | some l => !l.isEmpty | none => false) ||
    (match mm.documents with | some l => !l.isEmpty | none => false)

structure FormattedMedia where
  images : List FImage
  videos : List FVideo
  documents : List FDoc
  hasMedia : Bool

/-- `DataFormatter.formatMediaData`. -/
def formatMediaData (urlOk : String → Bool) (m : Option RawMedia) : FormattedMedia :=
  match m with
  | none => { images := [], videos := [], documents := [], hasMedia := false }
  | some mm =>
    { images := formatImageArray urlOk mm.images,
      videos := formatVideoArray urlOk mm.videos,
      documents := formatDocumentArray urlOk mm.documents,
      hasMedia := hasAnyMedia (some mm) }

/-- Host `Date` facilities the formatter relies on: parsing (`none` is an
invalid date), ISO and locale rendering, local weekday/hour, current time. -/
structure DateEnv where
  parseMs : String → Option ℤ
  toIso : ℤ → String
  toReadable : ℤ → String
  weekday : ℤ → String
  localHours : ℤ → ℕ
  nowMs : ℤ

/-- `DataFormatter.getRelativeTime` (Math.floor is floor division). -/
def getRelativeTime (nowMs ms : ℤ) : String :=
  let diffMs := nowMs - ms
  let diffMins := Int.fdiv diffMs 60000
  let diffHours := Int.fdiv diffMs 3600000
  let diffDays := Int.fdiv diffMs 86400000
  if diffMins < 1 then "Just now"
  else if diffMins < 60 then toString diffMins ++ "m ago"
  else if diffHours < 24 then toString diffHours ++ "h ago"
  else if diffDays < 7 then toString diffDays ++ "d ago"
  else if diffDays < 30 then toString (Int.fdiv diffDays 7) ++ "w ago"
  else if diffDays < 365 then toString (Int.fdiv diffDays 30) ++ "mo ago"
  else toString (Int.fdiv diffDays 365) ++ "y ago"

/-- `DataFormatter.getTimeOfDay`. -/
def getTimeOfDay (hour : ℕ) : String :=
  if hour < 6 then "night"
  else if hour < 12 then "morning"
  else if hour < 18 then "afternoon"
  else "evening"

/-- Formatted timestamp.  The falsy and invalid branches of the source
return objects without `dayOfWeek`/`timeOfDay`, modelled by `none`. -/
structure FormattedTimestamp where
  iso : Option String
  readable : String
  relative : String
  dayOfWeek : Option String
  timeOfDay : Option String

/-- `DataFormatter.formatTimestamp`. -/
def formatTimestamp (denv : DateEnv) (ts : Option String) : FormattedTimestamp :=
  match ts with
  | none =>
    { iso := none, readable := "Unknown", relative := "Unknown",
      dayOfWeek := none, timeOfDay := none }
  | some s =>
    if s = "" then
      { iso := none, readable := "Unknown", relative := "Unknown",
        dayOfWeek := none, timeOfDay := none }
    else
      match denv.parseMs s with
      | none =>
        { iso := none, readable := "Invalid Date", relative := "Unknown",
          dayOfWeek := none, timeOfDay := none }
      | some ms =>
        { iso := some (denv.toIso ms), readable := denv.toReadable ms,
          relative := getRelativeTime denv.nowMs ms,
          dayOfWeek := some (denv.weekday ms),
          timeOfDay := some (getTimeOfDay (denv.localHours ms)) }

/-- The raw record bag `formatPostData` reads (absent properties `none`). -/
structure RawPost where
  id : Option String
  url : Option String
  author : Option RawAuthor
  content : Option String
  metrics : Option RawMetrics
  media : Option RawMedia
  timestamp : Option String

structure FormattedPost where
  id : String
  url : String
  author : FormattedAuthor
  content : FormattedContent
  metrics : FormattedMetrics
  media : FormattedMedia
  timestamp : FormattedTimestamp
  postType : String
  extractedAt : String
  platform : String

/-- `determinePostType(rawPostData)` reads the RAW record: its media arrays
via optional chaining, and `content?.text`, which on the raw record is a
plain string with no `text` property, hence `undefined`. -/
def rawPTView (raw : RawPost) : PTView RawMediaItem :=
  { media := raw.media.map fun m => ⟨m.videos, m.images, m.documents⟩,
    content := raw.content.map fun _ => ⟨none⟩ }

/-- The record assembly inside `formatPostData`'s try block. -/
def mkFormatted (urlOk : String → Bool) (denv : DateEnv) (raw : RawPost) : FormattedPost :=
  { id := sanitizeString (raw.id.getD ""),
    url := formatUrl urlOk raw.url,
    author := formatAuthorData urlOk raw.author,
    content := formatContent raw.content,
    metrics := formatMetrics raw.metrics,
    media := formatMediaData urlOk raw.media,
    timestamp := formatTimestamp denv raw.timestamp,
    postType := determinePostType (rawPTView raw),
    extractedAt := denv.toIso denv.nowMs,
    platform := "LinkedIn" }

/-- The errors `validatePostData` can throw: the three missing-field errors,
the name and content errors, and the TypeError raised by reading `.hasMedia`
of an undefined `media` slot. -/
inductive ValidationErr where
  | missing (field : String)
  | authorNameRequired
  | contentRequired
  | typeError

/-- The slots of a record `validatePostData` inspects. -/
structure VAuthor where
  name : String

structure VContent where
  text : String

structure VMedia where
  hasMedia : Bool

structure VRec where
  id : String
  author : Option VAuthor
  content : Option VContent
  media : Option VMedia

/-- `DataFormatter.validatePostData`: required fields in order, then
`author.name`, then text-or-media. -/
def validatePostData (p : VRec) : Except ValidationErr Unit :=
  if p.id = "" then .error (.missing "id")
  else
    match p.author with
    | none => .error (.missing "author")
    | some a =>
      match p.content with
      | none => .error (.missing "content")
      | some c =>
        if a.name = "" then .error .authorNameRequired
        else if c.text = "" then
          match p.media with
          | none => .error .typeError
          | some m => if m.hasMedia = false then .error .contentRequired else .ok ()
        else .ok ()

/-- The validation view of a formatted record (all object slots present). -/
def toVRec (f : FormattedPost) : VRec :=
  { id := f.id, author := some ⟨f.author.name⟩, content := some ⟨f.content.text⟩,
    media := some ⟨f.media.hasMedia⟩ }

/-- `DataFormatter.formatPostData`: build the formatted record, validate it,
and catch a validation failure as `null` for this record only. -/
def formatPostData (urlOk : String → Bool) (denv : DateEnv) (raw : RawPost) :
    Option FormattedPost :=
  match validatePostData (toVRec (mkFormatted urlOk denv raw)) with
  | .ok _ => some (mkFormatted urlOk denv raw)
  | .error _ => none

end DataFormatter

namespace DOMScanner

open JsStr

/-- Author slot of a scanner-level post record. -/
structure SAuthor where
  name : String
deriving DecidableEq

/-- Media slot of a scanner-level post record. -/
structure SMedia where
  images : List String
  videos : List String
deriving DecidableEq

/-- The fields of an extracted post record the scanner itself reads
(`shouldIncludePost` and logging). -/
structure SPost where
  id : String
  author : SAuthor
  media : SMedia
  postType : String
deriving DecidableEq

/-- `settings.scanningPreferences` (absent properties `none`). -/
structure ScanPrefs where
  maxPostsPerScan : Option Nat
  includeImages : Option Bool
  includeVideos : Option Bool

structure Settings where
  scanningPreferences : ScanPrefs

/-- Caller-supplied `startScan` options (absent properties `none`). -/
structure ScanOptionsIn where
  maxPosts : Option Nat := none
  includeImages : Option Bool := none
  includeVideos : Option Bool := none
  scrollToLoad : Option Bool := none
  postTypes : Option (List String) := none
  authorFilter : Option String := none

/-- The effective options after the defaults and the trailing
`...options` spread. -/
structure MergedOptions where
  maxPosts : Nat
  includeImages : Option Bool
  includeVideos : Option Bool
  scrollToLoad : Bool
  postTypes : Option (List String)
  authorFilter : Option String

/-- The option merge of `startScan`: each computed default
(`options.x || settings…` / `!== undefined` checks) is overridden again by
the trailing `...options` spread whenever the caller passed the property,
so a present caller property always wins (even a falsy one, e.g.
`maxPosts: 0`). -/
def mergeScanOptions (o : ScanOptionsIn) (s : Settings) : MergedOptions :=
  { maxPosts :=
      match o.maxPosts with
      | some n => n
      | none =>
        match s.scanningPreferences.maxPostsPerScan with
        | some m => if m ≠ 0 then m else 100
        | none => 100,
    includeImages :=
      match o.includeImages with
      | some b => some b
      | none => s.scanningPreferences.includeImages,
    includeVideos :=
      match o.includeVideos with
      | some b => some b
      | none => s.scanningPreferences.includeVideos,
    scrollToLoad := o.scrollToLoad.getD true,
    postTypes := o.postTypes,
    authorFilter := o.authorFilter }

/-- JS truthiness of a possibly-absent Boolean option. -/
def jsTruthyOB (o : Option Bool) : Bool := o.getD false

/-- `DOMScanner.shouldIncludePost`. -/
def shouldIncludePost (pd : SPost) (opts : MergedOptions) : Bool :=
  if !jsTruthyOB opts.includeImages && decide (0 < pd.media.images.length) then false
  else if !jsTruthyOB opts.includeVideos && decide (0 < pd.media.videos.length) then false
  else if (match opts.postTypes with
      | some ts => !ts.contains pd.postType
      | none => false) then false
  else if (match opts.authorFilter with
      | some f => decide (f ≠ "") && !jsIncludes (jsToLower pd.author.name) (jsToLower f)
      | none => false) then false
  else true

/-- Scanner instance state: `isScanning`, `scanProgress`, `extractedPosts`. -/
structure ScanState where
  isScanning : Bool
  progressCurrent : Nat
  progressTotal : Nat
  extractedPosts : List SPost
deriving DecidableEq

/-- One `scanProgress` event, instrumented with the extracted count the
event detail carries and (as a specification observation) the discovered
count — the length of the latest `findAllPosts()` result — at emission. -/
structure ProgressEv where
  current : Nat
  total : Nat
  extractedCount : Nat
  discovered : Nat
deriving DecidableEq

/-- The host context of one scan over abstract container elements `α`
(compared by reference, hence the plain `DecidableEq`): the persisted
settings, the per-element validity check `isValidPost` (a pure function of
the element's immutable subtree), the page's post-container query results at
the `k`-th `findAllPosts` call, and the injected extractor's
`extractPostData` (which may return null or throw). -/
structure ScanEnv (α : Type) where
  settings : Settings
  valid : α → Bool
  dom : Nat → List α
  extract : α → Except Unit (Option SPost)

/-- The accumulation loop of `findAllPosts`: push each queried container not
already collected that passes `isValidPost`. -/
def findAllPostsGo [DecidableEq α] (valid : α → Bool) : List α → List α → List α
  | [], acc => acc
  | x :: xs, acc => findAllPostsGo valid xs (if x ∉ acc ∧ valid x = true then acc ++ [x] else acc)

/-- `DOMScanner.findAllPosts` on one DOM query result. -/
def findAllPosts [DecidableEq α] (valid : α → Bool) (dom : List α) : List α :=
  findAllPostsGo valid dom []

/-- `DOMScanner.processBatch`: per-container extraction with a per-container
catch; a null or thrown extraction skips the container; an included post is
appended and the loop breaks once `maxPosts` is reached. -/
def processBatch (env : ScanEnv α) (opts : MergedOptions) : List α → ScanState → ScanState
  | [], st => st
  | el :: rest, st =>
    if st.isScanning = false then st
    else
      match env.extract el with
      | .error _ => processBatch env opts rest st
      | .ok none => processBatch env opts rest st
      | .ok (some pd) =>
        if shouldIncludePost pd opts then
          if opts.maxPosts ≤ (st.extractedPosts ++ [pd]).length then
            { st with extractedPosts := st.extractedPosts ++ [pd] }
          else processBatch env opts rest { st with extractedPosts := st.extractedPosts ++ [pd] }
        else processBatch env opts rest st

/-- `initialPosts.slice(i, i + 5)` chunking of the batch loop. -/
def chunksOf5 : List α → List (List α)
  | [] => []
  | x :: xs => ((x :: xs).take 5) :: chunksOf5 ((x :: xs).drop 5)
termination_by l => l.length
decreasing_by
  simp only [List.length_drop, List.length_cons]
  omega

/-- One iteration of the initial batch loop: process the batch and update
`scanProgress.current = min(extracted, scanProgress.total)`. -/
def stepState (env : ScanEnv α) (opts : MergedOptions) (b : List α) (st : ScanState) :
    ScanState :=
  { processBatch env opts b st with
    progressCurrent := min (processBatch env opts b st).extractedPosts.length
      (processBatch env opts b st).progressTotal }

/-- The progress event emitted after one initial-loop batch (`total` was
fixed from the initial discovery `d0`). -/
def stepEv (env : ScanEnv α) (opts : MergedOptions) (b : List α) (st : ScanState)
    (d0 : Nat) : ProgressEv :=
  ⟨min (processBatch env opts b st).extractedPosts.length
      (processBatch env opts b st).progressTotal,
   (processBatch env opts b st).progressTotal,
   (processBatch env opts b st).extractedPosts.length, d0⟩

/-- The initial batch loop of `startScan`: while containers remain and the
cap is not reached, process a batch, update `scanProgress.current`, and
emit a progress event. -/
def batchLoop (env : ScanEnv α) (opts : MergedOptions) (d0 : Nat) :
    List (List α) → ScanState → ScanState × List ProgressEv
  | [], st => (st, [])
  | b :: rest, st =>
    if st.extractedPosts.length < opts.maxPosts then
      ((batchLoop env opts d0 rest (stepState env opts b st)).1,
        stepEv env opts b st d0 :: (batchLoop env opts d0 rest (stepState env opts b st)).2)
    else (st, [])

/-- `findAllPosts()` at the `k`-th discovery. -/
def lmDiscover [DecidableEq α] (env : ScanEnv α) (k : Nat) : List α :=
  findAllPosts env.valid (env.dom k)

/-- `processBatch(newPosts.slice(lastPostCount))` of one load-more round. -/
def lmProcess [DecidableEq α] (env : ScanEnv α) (opts : MergedOptions)
    (lastPostCount k : Nat) (st : ScanState) : ScanState :=
  processBatch env opts ((lmDiscover env k).drop lastPostCount) st

/-- The state after one productive load-more round: fresh
`total = min(newPosts.length, maxPosts)` and `current = min(extracted, total)`. -/
def lmState [DecidableEq α] (env : ScanEnv α) (opts : MergedOptions)
    (lastPostCount k : Nat) (st : ScanState) : ScanState :=
  { lmProcess env opts lastPostCount k st with
    progressTotal := min (lmDiscover env k).length opts.maxPosts,
    progressCurrent := min (lmProcess env opts lastPostCount k st).extractedPosts.length
      (min (lmDiscover env k).length opts.maxPosts) }

/-- The progress event of one productive load-more round. -/
def lmEv [DecidableEq α] (env : ScanEnv α) (opts : MergedOptions)
    (lastPostCount k : Nat) (st : ScanState) : ProgressEv :=
  ⟨min (lmProcess env opts lastPostCount k st).extractedPosts.length
      (min (lmDiscover env k).length opts.maxPosts),
   min (lmDiscover env k).length opts.maxPosts,
   (lmProcess env opts lastPostCount k st).extractedPosts.length,
   (lmDiscover env k).length⟩

/-- `DOMScanner.loadMorePosts`: up to 5 scroll attempts (counter reset when
new containers appear), re-discover, process the slice past
`lastPostCount`, set `scanProgress` to the freshly discovered totals and
emit.  `fuel` bounds the unrolling — the source loop may run unboundedly
when the page keeps loading content; every terminating run is an instance. -/
def loadMoreLoop [DecidableEq α] (env : ScanEnv α) (opts : MergedOptions) :
    Nat → Nat → Nat → Nat → ScanState → ScanState × List ProgressEv
  | 0, _, _, _, st => (st, [])
  | fuel + 1, scrollAttempts, lastPostCount, k, st =>
    if scrollAttempts < 5 ∧ st.extractedPosts.length < opts.maxPosts ∧ st.isScanning = true then
      if 0 < ((lmDiscover env k).drop lastPostCount).length then
        ((loadMoreLoop env opts fuel 0 (lmDiscover env k).length (k + 1)
            (lmState env opts lastPostCount k st)).1,
          lmEv env opts lastPostCount k st ::
            (loadMoreLoop env opts fuel 0 (lmDiscover env k).length (k + 1)
              (lmState env opts lastPostCount k st)).2)
      else
        loadMoreLoop env opts fuel (scrollAttempts + 1) lastPostCount (k + 1) st
    else (st, [])

/-- The state at the start of a scan: `isScanning := true`, a reset
`extractedPosts`, and `scanProgress.total = min(initialPosts.length,
maxPosts)` from the initial discovery (`lmDiscover env 0`). -/
def startState [DecidableEq α] (env : ScanEnv α) (opts : ScanOptionsIn)
    (st0 : ScanState) : ScanState :=
  { st0 with
    isScanning := true
    extractedPosts := []
    progressTotal :=
      min (lmDiscover env 0).length (mergeScanOptions opts env.settings).maxPosts }

/-- The initial discovery plus batch loop of `startScan`. -/
def initialPhase [DecidableEq α] (env : ScanEnv α) (opts : ScanOptionsIn)
    (st0 : ScanState) : ScanState × List ProgressEv :=
  batchLoop env (mergeScanOptions opts env.settings) (lmDiscover env 0).length
    (chunksOf5 (lmDiscover env 0)) (startState env opts st0)

/-- `DOMScanner.startScan`: reject when already scanning (before any state
is touched); otherwise reset `extractedPosts`, merge options, discover,
batch-process with progress, optionally load more (when `scrollToLoad` and
still under the cap), hand the collected records to storage (a side effect
outside the state) and return them, clearing `isScanning` in the
`finally`. -/
def startScan [DecidableEq α] (env : ScanEnv α) (opts : ScanOptionsIn) (fuel : Nat)
    (st0 : ScanState) : Except String (List SPost) × ScanState × List ProgressEv :=
  if st0.isScanning = true then (.error "Scan already in progress", st0, [])
  else
    if (mergeScanOptions opts env.settings).scrollToLoad = true ∧
        (initialPhase env opts st0).1.extractedPosts.length <
          (mergeScanOptions opts env.settings).maxPosts then
      (.ok (loadMoreLoop env (mergeScanOptions opts env.settings) fuel 0
          (initialPhase env opts st0).1.extractedPosts.length 1
          (initialPhase env opts st0).1).1.extractedPosts,
       { (loadMoreLoop env (mergeScanOptions opts env.settings) fuel 0
          (initialPhase env opts st0).1.extractedPosts.length 1
          (initialPhase env opts st0).1).1 with isScanning := false },
       (initialPhase env opts st0).2 ++
         (loadMoreLoop env (mergeScanOptions opts env.settings) fuel 0
          (initialPhase env opts st0).1.extractedPosts.length 1
          (initialPhase env opts st0).1).2)
    else
      (.ok (initialPhase env opts st0).1.extractedPosts,
       { (initialPhase env opts st0).1 with isScanning := false },
       (initialPhase env opts st0).2)

/-- The per-event progress equations of the specification:
`total = min(discovered, maxPosts)` and `current = min(extracted, total)`. -/
def evOk (maxPosts : Nat) (ev : ProgressEv) : Prop :=
  ev.total = min ev.discovered maxPosts ∧ ev.current = min ev.extractedCount ev.total

/-- Componentwise order on progress reports. -/
def evLe (a b : ProgressEv) : Prop :=
  a.current ≤ b.current ∧ a.total ≤ b.total

end DOMScanner

/-! ## Lemmas and claim theorems -/

namespace JsStr

theorem length_dropWhile_le' (p : Char → Bool) (l : List Char) :
    (l.dropWhile p).length ≤ l.length :=
  (List.dropWhile_suffix p).sublist.length_le

theorem collapseWs_nil : collapseWs [] = [] := rfl

theorem collapseWs_singleton (c : Char) :
    collapseWs [c] = if jsWhitespace c then [' '] else [c] := rfl

theorem collapseWs_cons_neg {c : Char} (l : List Char) (h : jsWhitespace c = false) :
    collapseWs (c :: l) = c :: collapseWs l := by
  cases l with
  | nil => simp [collapseWs, h]
  | cons d r => simp [collapseWs, h]

theorem collapseWs_cons_cons_ww {c₁ c₂ : Char} (rest : List Char)
    (h₁ : jsWhitespace c₁ = true) (h₂ : jsWhitespace c₂ = true) :
    collapseWs (c₁ :: c₂ :: rest) = collapseWs (c₂ :: rest) := by
  simp [collapseWs, h₁, h₂]

theorem collapseWs_cons_cons_wn {c₁ c₂ : Char} (rest : List Char)
    (h₁ : jsWhitespace c₁ = true) (h₂ : jsWhitespace c₂ = false) :
    collapseWs (c₁ :: c₂ :: rest) = ' ' :: collapseWs (c₂ :: rest) := by
  simp [collapseWs, h₁, h₂]

theorem collapseWs_ne_nil : ∀ {l : List Char}, l ≠ [] → collapseWs l ≠ [] := by
  intro l h
  induction l with
  | nil => exact absurd rfl h
  | cons c rest ih =>
    cases rest with
    | nil =>
      rw [collapseWs_singleton]
      by_cases hc : jsWhitespace c <;> simp [hc]
    | cons d r =>
      by_cases hc : jsWhitespace c
      · by_cases hd : jsWhitespace d
        · rw [collapseWs_cons_cons_ww r hc hd]
          exact ih (by simp)
        · rw [collapseWs_cons_cons_wn r hc (by simpa using hd)]
          simp
      · rw [collapseWs_cons_neg _ (by simpa using hc)]
        simp

theorem mem_dropWhile {p : Char → Bool} {l : List Char} {c : Char}
    (h : c ∈ l.dropWhile p) : c ∈ l :=
  (List.dropWhile_suffix p).subset h

theorem mem_collapseWs : ∀ {l : List Char} {c : Char}, c ∈ collapseWs l →
    c = ' ' ∨ (c ∈ l ∧ jsWhitespace c = false) := by
  intro l
  induction l with
  | nil => intro c h; rw [collapseWs_nil] at h; simp at h
  | cons a rest ih =>
    intro c h
    cases rest with
    | nil =>
      rw [collapseWs_singleton] at h
      by_cases ha : jsWhitespace a
      · rw [if_pos ha] at h
        simp at h
        exact Or.inl h
      · rw [if_neg ha] at h
        simp at h
        exact Or.inr ⟨by simp [h], by subst h; simpa using ha⟩
    | cons d r =>
      by_cases ha : jsWhitespace a
      · by_cases hd : jsWhitespace d
        · rw [collapseWs_cons_cons_ww r ha hd] at h
          rcases ih h with h1 | ⟨h1, h2⟩
          · exact Or.inl h1
          · exact Or.inr ⟨List.mem_cons_of_mem a h1, h2⟩
        · rw [collapseWs_cons_cons_wn r ha (by simpa using hd)] at h
          rcases List.mem_cons.mp h with h1 | h1
          · exact Or.inl h1
          · rcases ih h1 with h2 | ⟨h2, h3⟩
            · exact Or.inl h2
            · exact Or.inr ⟨List.mem_cons_of_mem a h2, h3⟩
      · rw [collapseWs_cons_neg _ (by simpa using ha)] at h
        rcases List.mem_cons.mp h with h1 | h1
        · exact Or.inr ⟨by simp [h1], by subst h1; simpa using ha⟩
        · rcases ih h1 with h2 | ⟨h2, h3⟩
          · exact Or.inl h2
          · exact Or.inr ⟨List.mem_cons_of_mem a h2, h3⟩

theorem length_collapseWs_le : ∀ (l : List Char), (collapseWs l).length ≤ l.length := by
  intro l
  induction l with
  | nil => simp [collapseWs_nil]
  | cons a rest ih =>
    cases rest with
    | nil =>
      rw [collapseWs_singleton]
      by_cases ha : jsWhitespace a <;> simp [ha]
    | cons d r =>
      by_cases ha : jsWhitespace a
      · by_cases hd : jsWhitespace d
        · rw [collapseWs_cons_cons_ww r ha hd]
          exact le_trans ih (by simp)
        · rw [collapseWs_cons_cons_wn r ha (by simpa using hd)]
          simpa using ih
      · rw [collapseWs_cons_neg _ (by simpa using ha)]
        simpa using ih

theorem head?_dropWhile_not (p : Char → Bool) (l : List Char) :
    ∀ a ∈ (l.dropWhile p).head?, p a = false := by
  induction l with
  | nil => simp [List.dropWhile]
  | cons c rest ih =>
    by_cases h : p c
    · simpa [List.dropWhile, h] using ih
    · simp [List.dropWhile, h]

theorem collapsedB_tail {c : Char} {l : List Char} (h : collapsedB (c :: l) = true) :
    collapsedB l = true := by
  match l with
  | [] => rfl
  | d :: rest => simp only [collapsedB, Bool.and_eq_true] at h; exact h.2

theorem collapsedB_collapseWs : ∀ (l : List Char), collapsedB (collapseWs l) = true := by
  intro l
  induction l with
  | nil => rw [collapseWs_nil]; rfl
  | cons a rest ih =>
    cases rest with
    | nil =>
      rw [collapseWs_singleton]
      by_cases ha : jsWhitespace a <;> simp [ha, collapsedB]
    | cons d r =>
      by_cases ha : jsWhitespace a
      · by_cases hd : jsWhitespace d
        · rw [collapseWs_cons_cons_ww r ha hd]
          exact ih
        · have hd' : jsWhitespace d = false := by simpa using hd
          rw [collapseWs_cons_cons_wn r ha hd']
          rw [collapseWs_cons_neg r hd'] at ih ⊢
          match hM : collapseWs r with
          | [] => simp [collapsedB, hd']
          | e :: M =>
            rw [hM] at ih
            simp only [collapsedB, Bool.and_eq_true] at ih ⊢
            exact ⟨⟨by simp, by simp [hd']⟩, ih⟩
      · have ha' : jsWhitespace a = false := by simpa using ha
        rw [collapseWs_cons_neg _ ha']
        match hM : collapseWs (d :: r) with
        | [] => simp [collapsedB, ha']
        | e :: M =>
          rw [hM] at ih
          simp only [collapsedB, Bool.and_eq_true] at ih ⊢
          exact ⟨⟨by simp [ha'], by simp [ha']⟩, ih⟩

theorem collapseWs_of_collapsedB : ∀ {l : List Char}, collapsedB l = true → collapseWs l = l := by
  intro l
  induction l with
  | nil => intro _; rfl
  | cons c rest ih =>
    intro h
    have hrest : collapsedB rest = true := collapsedB_tail h
    cases rest with
    | nil =>
      rw [collapseWs_singleton]
      by_cases hc : jsWhitespace c
      · have : c = ' ' := by simpa [collapsedB, hc] using h
        rw [if_pos hc, this]
      · rw [if_neg hc]
    | cons d r =>
      by_cases hc : jsWhitespace c
      · simp only [collapsedB, Bool.and_eq_true] at h
        have hsp : c = ' ' := by simpa [hc] using h.1.1
        have hd : jsWhitespace d = false := by simpa [hc] using h.1.2
        rw [collapseWs_cons_cons_wn r hc hd, ih hrest, hsp]
      · rw [collapseWs_cons_neg _ (by simpa using hc), ih hrest]

theorem collapseWs_idem (l : List Char) : collapseWs (collapseWs l) = collapseWs l :=
  collapseWs_of_collapsedB (collapsedB_collapseWs l)

theorem mem_jsTrim {l : List Char} {c : Char} (h : c ∈ jsTrim l) : c ∈ l := by
  unfold jsTrim at h
  rw [List.mem_reverse] at h
  have h1 := mem_dropWhile h
  rw [List.mem_reverse] at h1
  exact mem_dropWhile h1

theorem length_jsTrim_le (l : List Char) : (jsTrim l).length ≤ l.length := by
  unfold jsTrim
  calc ((l.dropWhile jsWhitespace).reverse.dropWhile jsWhitespace).reverse.length
      = ((l.dropWhile jsWhitespace).reverse.dropWhile jsWhitespace).length := by
        rw [List.length_reverse]
    _ ≤ (l.dropWhile jsWhitespace).reverse.length :=
        length_dropWhile_le' jsWhitespace _
    _ = (l.dropWhile jsWhitespace).length := by rw [List.length_reverse]
    _ ≤ l.length := length_dropWhile_le' jsWhitespace l

theorem jsTrim_eq_self {l : List Char}
    (hh : ∀ a ∈ l.head?, jsWhitespace a = false)
    (hl : ∀ a ∈ l.getLast?, jsWhitespace a = false) : jsTrim l = l := by
  have h1 : l.dropWhile jsWhitespace = l := by
    match l with
    | [] => rfl
    | c :: rest =>
      have : jsWhitespace c = false := by simpa using hh c
      simp [List.dropWhile, this]
  unfold jsTrim
  rw [h1]
  have h2 : l.reverse.dropWhile jsWhitespace = l.reverse := by
    match hrev : l.reverse with
    | [] => rfl
    | c :: rest =>
      have hc : c ∈ l.getLast? := by
        rw [← List.head?_reverse, hrev]; rfl
      simp [List.dropWhile, hl c hc]
  rw [h2, List.reverse_reverse]

theorem getLast?_suffix_eq {l₁ l₂ : List Char} (h : l₁ <:+ l₂) (hn : l₁ ≠ []) :
    l₂.getLast? = l₁.getLast? := by
  obtain ⟨t, rfl⟩ := h
  exact List.getLast?_append_of_ne_nil t hn

theorem getLast?_cons_ne {c : Char} {M : List Char} (h : M ≠ []) :
    (c :: M).getLast? = M.getLast? := by
  match M, h with
  | d :: M', _ => rw [List.getLast?_cons_cons]

theorem getLast?_collapseWs : ∀ {l : List Char},
    (∀ a ∈ l.getLast?, jsWhitespace a = false) →
    ∀ a ∈ (collapseWs l).getLast?, jsWhitespace a = false := by
  intro l
  induction l with
  | nil => intro _ a ha; rw [collapseWs_nil] at ha; simp at ha
  | cons c rest ih =>
    intro hl
    cases rest with
    | nil =>
      have hc : jsWhitespace c = false := by
        have := hl c (by rfl)
        exact this
      rw [collapseWs_singleton, if_neg (by simp [hc])]
      intro x hx
      simp only [List.getLast?_singleton, Option.mem_def, Option.some.injEq] at hx
      subst hx; exact hc
    | cons d r =>
      have hl' : ∀ x ∈ (d :: r).getLast?, jsWhitespace x = false := by
        intro x hx
        exact hl x (by rw [List.getLast?_cons_cons]; exact hx)
      have hne : collapseWs (d :: r) ≠ [] := collapseWs_ne_nil (by simp)
      by_cases hc : jsWhitespace c
      · by_cases hd : jsWhitespace d
        · rw [collapseWs_cons_cons_ww r hc hd]
          exact ih hl'
        · rw [collapseWs_cons_cons_wn r hc (by simpa using hd)]
          intro x hx
          rw [getLast?_cons_ne hne] at hx
          exact ih hl' x hx
      · rw [collapseWs_cons_neg _ (by simpa using hc)]
        intro x hx
        rw [getLast?_cons_ne hne] at hx
        exact ih hl' x hx

theorem head?_collapseWs {l : List Char}
    (hh : ∀ a ∈ l.head?, jsWhitespace a = false) :
    ∀ a ∈ (collapseWs l).head?, jsWhitespace a = false := by
  match l with
  | [] => simp [collapseWs_nil]
  | c :: rest =>
    have hc : jsWhitespace c = false := by simpa using hh c
    rw [collapseWs_cons_neg rest hc]
    simpa using hc

theorem head?_jsTrim {l : List Char} :
    ∀ a ∈ (jsTrim l).head?, jsWhitespace a = false := by
  intro a ha
  have hpre : jsTrim l <+: l.dropWhile jsWhitespace := by
    unfold jsTrim
    rw [← List.reverse_suffix]
    simpa using List.dropWhile_suffix (l := (l.dropWhile jsWhitespace).reverse) jsWhitespace
  have hne : jsTrim l ≠ [] := by
    intro hnil
    rw [hnil] at ha
    simp at ha
  have : (jsTrim l).head? = (l.dropWhile jsWhitespace).head? := by
    obtain ⟨t, ht⟩ := hpre
    match hJ : jsTrim l, hne with
    | c :: J, _ =>
      rw [hJ] at ht
      rw [← ht]
      rfl
  rw [this] at ha
  exact head?_dropWhile_not jsWhitespace l a ha

theorem getLast?_jsTrim {l : List Char} :
    ∀ a ∈ (jsTrim l).getLast?, jsWhitespace a = false := by
  intro a ha
  unfold jsTrim at ha
  rw [List.getLast?_reverse] at ha
  exact head?_dropWhile_not jsWhitespace _ a ha

theorem map_eq_self_of {f : Char → Char} {l : List Char} (h : ∀ c ∈ l, f c = c) :
    l.map f = l := by
  induction l with
  | nil => rfl
  | cons c rest ih =>
    simp only [List.map_cons, h c (by simp), ih fun x hx => h x (List.mem_cons_of_mem c hx)]

theorem replaceCrLfTab_collapseWs (l : List Char) :
    replaceCrLfTab (collapseWs l) = collapseWs l := by
  apply map_eq_self_of
  intro c hc
  rcases mem_collapseWs hc with h | ⟨_, h⟩
  · subst h; rfl
  · have : ¬(c = '\r' ∨ c = '\n' ∨ c = '\t') := by
      rintro (rfl | rfl | rfl) <;> simp [jsWhitespace] at h
    simp [this]

end JsStr

namespace DataFormatter

open JsStr

theorem sanitizeString_eq_of_printable {s : String}
    (hp : ∀ c ∈ s.data, jsPrintable c = true) (hl : s.data.length ≤ 10000) :
    sanitizeString s = ⟨collapseWs (jsTrim s.data)⟩ := by
  unfold sanitizeString
  by_cases hs : s = ""
  · subst hs
    simp [jsTrim, collapseWs_nil]
  · rw [if_neg hs]
    rw [replaceCrLfTab_collapseWs]
    have hfil : (collapseWs (jsTrim s.data)).filter jsPrintable = collapseWs (jsTrim s.data) := by
      rw [List.filter_eq_self]
      intro a hmem
      rcases mem_collapseWs hmem with h | ⟨h, _⟩
      · subst h; rfl
      · exact hp a (mem_jsTrim h)
    rw [hfil]
    congr 1
    apply List.take_of_length_le
    exact le_trans (length_collapseWs_le _) (le_trans (length_jsTrim_le _) hl)

/-- C10 amended: on printable input of length at most 10,000, `sanitizeString`
is idempotent. -/
theorem sanitizeString_idem {s : String}
    (hp : ∀ c ∈ s.data, jsPrintable c = true) (hl : s.data.length ≤ 10000) :
    sanitizeString (sanitizeString s) = sanitizeString s := by
  rw [sanitizeString_eq_of_printable hp hl]
  set u : List Char := collapseWs (jsTrim s.data) with hu
  have hup : ∀ c ∈ u, jsPrintable c = true := by
    intro c hc
    rcases mem_collapseWs hc with h | ⟨h, _⟩
    · subst h; rfl
    · exact hp c (mem_jsTrim h)
  have hul : u.length ≤ 10000 :=
    le_trans (length_collapseWs_le _) (le_trans (length_jsTrim_le _) hl)
  have hdata : (String.mk u).data = u := rfl
  rw [sanitizeString_eq_of_printable (by rw [hdata]; exact hup) (by rw [hdata]; exact hul)]
  rw [hdata]
  have htrim : jsTrim u = u := by
    apply jsTrim_eq_self
    · exact head?_collapseWs (fun a ha => head?_jsTrim a ha)
    · exact getLast?_collapseWs (fun a ha => getLast?_jsTrim a ha)
  rw [htrim, hu, collapseWs_idem]

end DataFormatter

namespace DataFormatter

open JsStr

/-- Claim C5 counterexample: `parseNumber("k")` is `NaN` (modelled `none`),
not `0` — the `k` branch multiplies `parseFloat("k") = NaN` and
`Math.round` keeps the `NaN`, so not every unparsable input yields 0. -/
theorem parseNumber_k_NaN : parseNumber (JSVal.str "k") = none ∧
    parseNumber (JSVal.str "k") ≠ some 0 := by
  constructor
  · rfl
  · decide

/-- Claim C5 (amended): numeric input passes through unchanged; the five
documented examples hold; an unparsable string with no k/m/b multiplier
yields 0; but a string containing a k/m/b whose body has no parsable leading
float yields `NaN` (`none`), not 0. -/
theorem parseNumber_spec :
    (∀ q : ℚ, parseNumber (JSVal.num q) = some q) ∧
    (parseNumber (JSVal.str "1.2K") = some 1200 ∧
     parseNumber (JSVal.str "5M") = some 5000000 ∧
     parseNumber (JSVal.str "1,234") = some 1234 ∧
     parseNumber (JSVal.str "") = some 0 ∧
     parseNumber JSVal.null = some 0) ∧
    (∀ s : String, s ≠ "" →
      (cleanNum s).data.contains 'k' = false →
      (cleanNum s).data.contains 'm' = false →
      (cleanNum s).data.contains 'b' = false →
      parseIntQ (cleanNum s) = none →
      parseNumber (JSVal.str s) = some 0) ∧
    (∀ s : String, s ≠ "" →
      (cleanNum s).data.contains 'k' = true →
      parseFloatQ (cleanNum s) = none →
      parseNumber (JSVal.str s) = none) := by
  refine ⟨fun q => rfl, ⟨?_, ?_, ?_, rfl, rfl⟩, ?_, ?_⟩
  · have h1 : parseNumber (JSVal.str "1.2K")
        = (parseFloatQ "1.2k").map fun q => ((jsRound (q * 1000) : ℤ) : ℚ) := rfl
    have h2 : parseFloatQ "1.2k"
        = some (1 * (((natOfDigits ['1'] : ℕ) : ℚ) + fracOfDigits ['2'])
            * (10 : ℚ) ^ expOf []) := rfl
    rw [h1, h2]
    simp [natOfDigits, fracOfDigits, digitVal, expOf, expDigits, jsRound]
    norm_num
  · have h1 : parseNumber (JSVal.str "5M")
        = (parseFloatQ "5m").map fun q => ((jsRound (q * 1000000) : ℤ) : ℚ) := rfl
    have h2 : parseFloatQ "5m"
        = some (1 * (((natOfDigits ['5'] : ℕ) : ℚ) + fracOfDigits [])
            * (10 : ℚ) ^ expOf ['m']) := rfl
    rw [h1, h2]
    simp [natOfDigits, fracOfDigits, digitVal, expOf, expDigits, jsRound]
    norm_num
  · have h1 : parseNumber (JSVal.str "1,234")
        = some ((natOfDigits ['1', '2', '3', '4'] : ℤ) : ℚ) := rfl
    rw [h1, show natOfDigits ['1', '2', '3', '4'] = 1234 from by decide]
    norm_num
  · intro s hs hk hm hb hint
    simp only [parseNumber, if_neg hs, hk, hm, hb, hint, Bool.false_eq_true, if_false]
  · intro s hs hk hfl
    simp only [parseNumber, if_neg hs, hk, if_true, hfl, Option.map_none']

/-- Claim C5 witness: the amended statement at concrete inputs. -/
theorem parseNumber_spec_witness :
    parseNumber (JSVal.num (7 / 2)) = some (7 / 2) ∧
    parseNumber (JSVal.str "xyz") = some 0 ∧
    parseNumber (JSVal.str "k") = none :=
  ⟨parseNumber_spec.1 (7 / 2),
   parseNumber_spec.2.2.1 "xyz" (by decide) (by decide) (by decide) (by decide) (by decide),
   parseNumber_spec.2.2.2 "k" (by decide) (by decide) (by decide)⟩

/-- Claim C9: `determinePostType` follows the exact precedence
video → carousel → image → document → poll → text, and a record with one
video and three images resolves to `video`. -/
theorem determinePostType_precedence :
    (∀ (vids imgs docs : List String) (txt : String),
      (vids ≠ [] →
        determinePostType ⟨some ⟨some vids, some imgs, some docs⟩, some ⟨some txt⟩⟩ = "video") ∧
      (vids = [] → 1 < imgs.length →
        determinePostType ⟨some ⟨some vids, some imgs, some docs⟩, some ⟨some txt⟩⟩ = "carousel") ∧
      (vids = [] → imgs.length = 1 →
        determinePostType ⟨some ⟨some vids, some imgs, some docs⟩, some ⟨some txt⟩⟩ = "image") ∧
      (vids = [] → imgs = [] → docs ≠ [] →
        determinePostType ⟨some ⟨some vids, some imgs, some docs⟩, some ⟨some txt⟩⟩ = "document") ∧
      (vids = [] → imgs = [] → docs = [] → jsIncludes txt "poll" = true →
        determinePostType ⟨some ⟨some vids, some imgs, some docs⟩, some ⟨some txt⟩⟩ = "poll") ∧
      (vids = [] → imgs = [] → docs = [] → jsIncludes txt "poll" = false →
        determinePostType ⟨some ⟨some vids, some imgs, some docs⟩, some ⟨some txt⟩⟩ = "text")) ∧
    (∀ (v i₁ i₂ i₃ : String) (txt : String),
      determinePostType ⟨some ⟨some [v], some [i₁, i₂, i₃], some []⟩, some ⟨some txt⟩⟩ = "video") := by
  constructor
  · intro vids imgs docs txt
    refine ⟨?_, ?_, ?_, ?_, ?_, ?_⟩
    · intro hv
      have : 0 < vids.length := List.length_pos.mpr hv
      simp [determinePostType, hasVideos, this]
    · intro hv hi
      subst hv
      simp [determinePostType, hasVideos, manyImages, hi]
    · intro hv hi
      subst hv
      simp [determinePostType, hasVideos, manyImages, oneImage, hi]
    · intro hv hi hd
      subst hv; subst hi
      have : 0 < docs.length := List.length_pos.mpr hd
      simp [determinePostType, hasVideos, manyImages, oneImage, hasDocuments, this]
    · intro hv hi hd hp
      subst hv; subst hi; subst hd
      simp [determinePostType, hasVideos, manyImages, oneImage, hasDocuments, mentionsPoll, hp]
    · intro hv hi hd hp
      subst hv; subst hi; subst hd
      simp [determinePostType, hasVideos, manyImages, oneImage, hasDocuments, mentionsPoll, hp]
  · intro v i₁ i₂ i₃ txt
    simp [determinePostType, hasVideos]

/-- Claim C9 witness: the precedence statement at concrete records. -/
theorem determinePostType_precedence_witness :
    determinePostType ⟨some ⟨some [], some ["i"], some []⟩, some ⟨some "hello"⟩⟩ = "image" ∧
    determinePostType ⟨some ⟨some ["v"], some ["a", "b", "c"], some []⟩, some ⟨some "t"⟩⟩ = "video" :=
  ⟨(determinePostType_precedence.1 [] ["i"] [] "hello").2.2.1 rfl rfl,
   determinePostType_precedence.2 "v" "a" "b" "c" "t"⟩

/-- Claim C10 counterexample: `sanitizeString` is not idempotent — stripping
the non-printable `\x01` exposes a leading space that only a second pass
trims. -/
theorem sanitizeString_not_idem :
    sanitizeString (sanitizeString "\x01 a") ≠ sanitizeString "\x01 a" := by
  decide

/-- Claim C10 witness: the amended idempotence at a concrete string. -/
theorem sanitizeString_idem_witness :
    (∀ c ∈ ("ab  c".data), JsStr.jsPrintable c = true) ∧ ("ab  c".data.length ≤ 10000) ∧
    sanitizeString (sanitizeString "ab  c") = sanitizeString "ab  c" :=
  ⟨by decide, by decide, sanitizeString_idem (by decide) (by decide)⟩

end DataFormatter

namespace PostExtractor

open JsStr Dom

/-- Claim C2 (code bug): the alternation `[mhdwy]|mo` lets `m` win before
`mo` can match, so `parseRelativeTime("1mo")` subtracts one minute, not the
30 days announced by the function's own comment and its dead `mo` switch
case; `"2h"` is handled as specified. -/
theorem parseRelativeTime_mo_bug (now : ℤ) :
    parseRelativeTime "1mo" now = now - 60000 ∧
    now - 60000 ≠ now - 30 * 24 * 60 * 60 * 1000 ∧
    parseRelativeTime "2h" now = now - 2 * 60 * 60 * 1000 := by
  refine ⟨?_, by omega, ?_⟩
  · rw [parseRelativeTime, show timeMatch "1mo".data = some (1, "m") from by decide]
    norm_num
  · rw [parseRelativeTime, show timeMatch "2h".data = some (2, "h") from by decide]
    norm_num
    decide

/-- Claim C3 (code bug): `extractPost` wraps the whole record in a single
try/catch, so a `querySelector` that throws (the repository's own unit-test
mock, which the test expects to degrade to `author.name = 'Unknown'`) nulls
the entire record even though the container itself is non-null. -/
theorem extractPost_record_level_catch :
    extractPost {} ⟨0, "r", none⟩ (some (DomE.mk [] [] [] false true "" none none)) = none ∧
    extractPost {} ⟨0, "r", none⟩ none = none := by
  exact ⟨rfl, rfl⟩

end PostExtractor

namespace PostExtractor

open JsStr Dom DataFormatter

/-- Claim C4 counterexample: a matched author element whose text is empty
makes `extractAuthorName` return `""`, not `"Unknown"`; and a whitespace-only
name survives the `|| 'Unknown'` default but sanitizes to `""` in
`formatAuthorData`. -/
theorem extractAuthorName_empty_counterexample :
    extractAuthorName
      (DomE.mk [] [(".feed-shared-actor__name", DomE.mk [] [] [] true false "" none none)]
        [] true false "" none none) = .ok "" ∧
    (Except.ok "" : Except Unit String) ≠ .ok "Unknown" ∧
    (formatAuthorData (fun _ => true) (some ⟨some " ", none, none, none, none⟩)).name = "" ∧
    ("" : String) ≠ "Unknown" := by
  refine ⟨rfl, by intro h; simp at h, rfl, by decide⟩

theorem extractAuthorNameLoop_unknown {e : DomE} (ht : e.qThrows = false) :
    ∀ sels : List String, (∀ sel ∈ sels, e.qs.lookup sel = none) →
      extractAuthorNameLoop e sels = .ok "Unknown" := by
  intro sels
  induction sels with
  | nil => intro _; rfl
  | cons sel rest ih =>
    intro h
    have h1 : querySelE e sel = .ok none := by
      rw [querySelE, if_neg (by simp [ht])]
      rw [h sel (by simp)]
    rw [extractAuthorNameLoop, h1]
    exact ih fun x hx => h x (List.mem_cons_of_mem sel hx)

/-- Claim C4 (amended): `extractAuthorName` returns the sentinel `"Unknown"`
when no author selector matches, and `formatAuthorData` maps an absent
author or a falsy (absent/empty) name to `"Unknown"`; but a matched element
may yield the empty string (see the counterexample), so the never-empty
guarantee holds only for the no-match and falsy-name paths. -/
theorem authorName_unknown_defaults :
    (∀ e : DomE, e.qThrows = false →
      (∀ sel ∈ authorNameSelectors, e.qs.lookup sel = none) →
      extractAuthorName e = .ok "Unknown") ∧
    (∀ urlOk : String → Bool, (formatAuthorData urlOk none).name = "Unknown") ∧
    (∀ (urlOk : String → Bool) (a : RawAuthor), jsTruthyS a.name = false →
      (formatAuthorData urlOk (some a)).name = "Unknown") := by
  refine ⟨?_, fun _ => rfl, ?_⟩
  · intro e ht h
    exact extractAuthorNameLoop_unknown ht authorNameSelectors h
  · intro urlOk a ha
    have hname : jsOrD a.name "Unknown" = "Unknown" := by
      match hn : a.name with
      | none => rfl
      | some s =>
        rw [hn] at ha
        simp [jsTruthyS] at ha
        simp [jsOrD, ha]
    simp only [formatAuthorData, hname]
    rfl

/-- Claim C4 witness: the amended statement at concrete inputs. -/
theorem authorName_unknown_defaults_witness :
    extractAuthorName (DomE.mk [("data-id", "x")] [] [] true false "t" none none) = .ok "Unknown" ∧
    (formatAuthorData (fun _ => true) (some ⟨some "", none, none, none, none⟩)).name = "Unknown" :=
  ⟨authorName_unknown_defaults.1 (DomE.mk [("data-id", "x")] [] [] true false "t" none none)
      rfl (by intro sel _; rfl),
   authorName_unknown_defaults.2.2 (fun _ => true) ⟨some "", none, none, none, none⟩ (by decide)⟩

end PostExtractor

namespace LinkedInSelectors

open JsStr Dom PostExtractor

/-- Claim C1 counterexample: with no platform-native attribute,
`generatePostId` builds the id from `Date.now()` and `Math.random()`, so two
calls on the identical container yield different identifiers — the fallback
is not the deterministic content hash the claim requires. -/
theorem generatePostId_not_stable :
    generatePostId ⟨1000, "aaa", none⟩ (some (DomE.mk [] [] [] true false "hello" none none)) ≠
    generatePostId ⟨2000, "bbb", none⟩ (some (DomE.mk [] [] [] true false "hello" none none)) := by
  decide

/-- Claim C1 (amended): the attribute paths are byte-for-byte and
call-independent — `generatePostId` returns a truthy URN attribute unchanged
for every `(now, random)` pair, and `getPostId` returns a truthy `data-id`
unchanged.  Neither function has a reachable deterministic content-hash
fallback: `generatePostId`'s fallback is built from `Date.now()` and
`Math.random()` (see the counterexample), and in `getPostId` the selector
table has no `content` key, so both `getAllSelectors('content', …)` calls
fall through to the instance field `this['contentSelectors']` and return the
whole `contentSelectors` object as the single "selector"; `querySelector`
of that non-string value throws, so `getPostId` throws on every element
whose `data-id` is falsy and the `'post_' + simpleHash(text)` code and the
null return are dead. -/
theorem extractIdentifier_spec :
    (∀ (env : ExtractorEnv) (e : DomE) (s : String), e.hasGetAttr = true →
      urnChain e = some s → s ≠ "" → generatePostId env (some e) = s) ∧
    (∀ (e : DomE) (s : String), e.hasGetAttr = true →
      e.attrs.lookup "data-id" = some s → s ≠ "" → getPostId e = .ok (some s)) ∧
    (getAllSelectors "content" (some "postUrl") = [Sel.obj contentSelectors] ∧
     getAllSelectors "content" (some "text") = [Sel.obj contentSelectors]) ∧
    (∀ e : DomE, e.hasGetAttr = true →
      jsTruthyS (e.attrs.lookup "data-id") = false →
      getPostId e = .error ()) := by
  refine ⟨?_, ?_, ⟨rfl, rfl⟩, ?_⟩
  · intro env e s hg hc hs
    simp [generatePostId, hg, hc, hs]
  · intro e s hg hd hs
    have h1 : getAttributeE e "data-id" = .ok (some s) := by
      simp [getAttributeE, hg, hd]
    simp [getPostId, h1, jsTruthyS, hs]
  · intro e hg hd
    have h1 : getAttributeE e "data-id" = .ok (e.attrs.lookup "data-id") := by
      simp [getAttributeE, hg]
    have h2 : getAllSelectors "content" (some "postUrl") = [Sel.obj contentSelectors] := rfl
    simp [getPostId, h1, hd, h2, findElement, querySelValE]

/-- Claim C1 witness: the amended statement at concrete elements — a truthy
URN attribute, a truthy `data-id`, and an ordinary element without `data-id`
on which `getPostId` throws instead of hashing its text. -/
theorem extractIdentifier_spec_witness :
    generatePostId ⟨1000, "aaa", none⟩
      (some (DomE.mk [("data-urn", "urn:li:activity:7")] [] [] true false "" none none)) =
      "urn:li:activity:7" ∧
    getPostId (DomE.mk [("data-id", "urn:li:activity:9")] [] [] true false "" none none) =
      .ok (some "urn:li:activity:9") ∧
    getPostId
      (DomE.mk [] [(".feed-shared-text .break-words",
          DomE.mk [] [] [] true false " Hello World " none none)] [] true false "" none none) =
      .error () :=
  ⟨extractIdentifier_spec.1 ⟨1000, "aaa", none⟩
      (DomE.mk [("data-urn", "urn:li:activity:7")] [] [] true false "" none none)
      "urn:li:activity:7" rfl (by decide) (by decide),
   extractIdentifier_spec.2.1
      (DomE.mk [("data-id", "urn:li:activity:9")] [] [] true false "" none none)
      "urn:li:activity:9" rfl (by decide) (by decide),
   extractIdentifier_spec.2.2.2
      (DomE.mk [] [(".feed-shared-text .break-words",
          DomE.mk [] [] [] true false " Hello World " none none)] [] true false "" none none)
      rfl (by decide)⟩

end LinkedInSelectors

namespace DataFormatter

open JsStr

/-- Claim C6: `validatePostData` fails exactly when `id`, `author` or
`content` is falsy, when `author.name` is falsy, or when `content.text` is
empty and no media is present (an absent `media` slot also fails, via the
TypeError of reading `.hasMedia`); `formatPostData` returns `null` for a
record exactly when validation of its formatted form fails; and formatting
is elementwise, so one malformed record maps to `null` without disturbing
the records around it. -/
theorem validatePostData_spec :
    (∀ p : VRec, (∃ err, validatePostData p = .error err) ↔
      (p.id = "" ∨ p.author = none ∨ p.content = none ∨
       (∃ a, p.author = some a ∧ a.name = "") ∨
       (∃ c, p.content = some c ∧ c.text = "" ∧
         (p.media = none ∨ ∃ m, p.media = some m ∧ m.hasMedia = false)))) ∧
    (∀ (urlOk : String → Bool) (denv : DateEnv) (raw : RawPost),
      formatPostData urlOk denv raw = none ↔
        ∃ err, validatePostData (toVRec (mkFormatted urlOk denv raw)) = .error err) ∧
    (∀ (urlOk : String → Bool) (denv : DateEnv) (l₁ l₂ : List RawPost) (bad : RawPost),
      formatPostData urlOk denv bad = none →
      (l₁ ++ bad :: l₂).map (formatPostData urlOk denv) =
        l₁.map (formatPostData urlOk denv) ++ none :: l₂.map (formatPostData urlOk denv)) := by
  refine ⟨?_, ?_, ?_⟩
  · rintro ⟨pid, pauthor, pcontent, pmedia⟩
    simp only [validatePostData]
    by_cases hid : pid = ""
    · simp [hid]
    · rw [if_neg hid]
      match pauthor with
      | none => simp [hid]
      | some a =>
        match pcontent with
        | none => simp [hid]
        | some c =>
          by_cases hname : a.name = ""
          · simp [hid, hname]
          · by_cases htext : c.text = ""
            · match pmedia with
              | none => simp [hid, hname, htext]
              | some m =>
                cases hm : m.hasMedia
                · simp [hid, hname, htext, hm]
                · simp [hid, hname, htext, hm]
            · simp [hid, hname, htext]
  · intro urlOk denv raw
    match h : validatePostData (toVRec (mkFormatted urlOk denv raw)) with
    | .ok u => simp [formatPostData, h]
    | .error err => simp [formatPostData, h]
  · intro urlOk denv l₁ l₂ bad h
    simp [List.map_append, List.map_cons, h]

/-- Claim C6 witness: a record whose raw `id` is absent formats to an empty
id, fails validation, and maps to `null` inside a batch. -/
theorem validatePostData_spec_witness :
    (∃ err, validatePostData ⟨"", none, none, none⟩ = .error err) ∧
    ([] ++ (⟨none, none, some ⟨some "A", none, none, none, none⟩, some "hi",
        none, none, none⟩ : RawPost) :: []).map
      (formatPostData (fun _ => true) ⟨fun _ => none, fun _ => "", fun _ => "", fun _ => "",
        fun _ => 0, 0⟩) =
      ([] : List RawPost).map (formatPostData (fun _ => true)
        ⟨fun _ => none, fun _ => "", fun _ => "", fun _ => "", fun _ => 0, 0⟩) ++
      none :: ([] : List RawPost).map (formatPostData (fun _ => true)
        ⟨fun _ => none, fun _ => "", fun _ => "", fun _ => "", fun _ => 0, 0⟩) :=
  ⟨(validatePostData_spec.1 ⟨"", none, none, none⟩).mpr (Or.inl rfl),
   validatePostData_spec.2.2 (fun _ => true)
     ⟨fun _ => none, fun _ => "", fun _ => "", fun _ => "", fun _ => 0, 0⟩ [] []
     ⟨none, none, some ⟨some "A", none, none, none, none⟩, some "hi", none, none, none⟩
     rfl⟩

end DataFormatter

namespace DOMScanner

open JsStr

/-- Claim C7: a `startScan` call while a scan is in flight throws the
already-scanning error before touching anything, so the extracted-posts
list and the progress counters of the running scan are left exactly as
they were and no event is emitted. -/
theorem startScan_guard {α : Type} [DecidableEq α] (env : ScanEnv α) (opts : ScanOptionsIn)
    (fuel : Nat) (st : ScanState) (h : st.isScanning = true) :
    startScan env opts fuel st = (.error "Scan already in progress", st, []) := by
  simp [startScan, h]

/-- Claim C7 witness: the guard at a concrete mid-scan state. -/
theorem startScan_guard_witness :
    startScan
      (⟨⟨some 3, some true, some true⟩, fun _ => true, fun _ => [],
        fun _ => .ok none⟩ : ScanEnv Nat) {} 5
      ⟨true, 2, 4, [⟨"p1", ⟨"A"⟩, ⟨[], []⟩, "text"⟩]⟩ =
    (.error "Scan already in progress", ⟨true, 2, 4, [⟨"p1", ⟨"A"⟩, ⟨[], []⟩, "text"⟩]⟩, []) :=
  startScan_guard _ {} 5 _ rfl

end DOMScanner

namespace DOMScanner

open JsStr

theorem processBatch_spec (env : ScanEnv α) (opts : MergedOptions) :
    ∀ (b : List α) (st : ScanState),
      (processBatch env opts b st).isScanning = st.isScanning ∧
      (processBatch env opts b st).progressCurrent = st.progressCurrent ∧
      (processBatch env opts b st).progressTotal = st.progressTotal ∧
      st.extractedPosts <+: (processBatch env opts b st).extractedPosts := by
  intro b
  induction b with
  | nil =>
    intro st
    exact ⟨rfl, rfl, rfl, List.prefix_refl _⟩
  | cons el rest ih =>
    intro st
    rw [processBatch]
    split
    · exact ⟨rfl, rfl, rfl, List.prefix_refl _⟩
    · split
      · exact ih st
      · exact ih st
      · split
        · split
          · exact ⟨rfl, rfl, rfl, List.prefix_append _ _⟩
          · obtain ⟨h1, h2, h3, h4⟩ := ih { st with extractedPosts := st.extractedPosts ++ _ }
            exact ⟨h1, h2, h3, (List.prefix_append _ _).trans h4⟩
        · exact ih st

theorem findAllPostsGo_append [DecidableEq α] (valid : α → Bool) :
    ∀ (l₁ l₂ acc : List α),
      findAllPostsGo valid (l₁ ++ l₂) acc =
        findAllPostsGo valid l₂ (findAllPostsGo valid l₁ acc) := by
  intro l₁
  induction l₁ with
  | nil => intro l₂ acc; rfl
  | cons x xs ih =>
    intro l₂ acc
    rw [List.cons_append, findAllPostsGo, findAllPostsGo]
    exact ih l₂ _

theorem findAllPostsGo_prefix [DecidableEq α] (valid : α → Bool) :
    ∀ (l acc : List α), acc <+: findAllPostsGo valid l acc := by
  intro l
  induction l with
  | nil => intro acc; exact List.prefix_refl _
  | cons x xs ih =>
    intro acc
    rw [findAllPostsGo]
    split
    · exact (List.prefix_append _ _).trans (ih (acc ++ [x]))
    · exact ih acc

theorem findAllPosts_mono [DecidableEq α] (valid : α → Bool) {l₁ l₂ : List α}
    (h : l₁ <+: l₂) : findAllPosts valid l₁ <+: findAllPosts valid l₂ := by
  obtain ⟨t, rfl⟩ := h
  rw [findAllPosts, findAllPosts, findAllPostsGo_append]
  exact findAllPostsGo_prefix valid t _

theorem dom_chain_mono {α : Type} (dom : Nat → List α)
    (hdom : ∀ k, dom k <+: dom (k + 1)) : ∀ j k, j ≤ k → dom j <+: dom k := by
  intro j k hjk
  induction k with
  | zero =>
    have h0 : j = 0 := Nat.le_zero.mp hjk
    subst h0
    exact List.prefix_refl _
  | succ n ihn =>
    rcases Nat.lt_or_ge j (n + 1) with hlt | hge
    · exact (ihn (Nat.lt_succ_iff.mp hlt)).trans (hdom n)
    · have hj : j = n + 1 := Nat.le_antisymm hjk hge
      subst hj
      exact List.prefix_refl _

end DOMScanner

namespace DOMScanner

open JsStr

theorem stepState_progressTotal (env : ScanEnv α) (opts : MergedOptions) (b : List α)
    (st : ScanState) : (stepState env opts b st).progressTotal = st.progressTotal :=
  (processBatch_spec env opts b st).2.2.1

theorem stepState_isScanning (env : ScanEnv α) (opts : MergedOptions) (b : List α)
    (st : ScanState) : (stepState env opts b st).isScanning = st.isScanning :=
  (processBatch_spec env opts b st).1

theorem stepState_extends (env : ScanEnv α) (opts : MergedOptions) (b : List α)
    (st : ScanState) : st.extractedPosts <+: (stepState env opts b st).extractedPosts :=
  (processBatch_spec env opts b st).2.2.2

theorem batchLoop_spec (env : ScanEnv α) (opts : MergedOptions) (d0 : Nat) :
    ∀ (bs : List (List α)) (st : ScanState),
      st.progressTotal = min d0 opts.maxPosts →
      ((batchLoop env opts d0 bs st).1.progressTotal = st.progressTotal ∧
       (batchLoop env opts d0 bs st).1.isScanning = st.isScanning ∧
       st.extractedPosts <+: (batchLoop env opts d0 bs st).1.extractedPosts) ∧
      (∀ ev ∈ (batchLoop env opts d0 bs st).2,
        evOk opts.maxPosts ev ∧ ev.total = st.progressTotal ∧
        ev.current ≤ min (batchLoop env opts d0 bs st).1.extractedPosts.length
          st.progressTotal ∧
        min st.extractedPosts.length st.progressTotal ≤ ev.current) ∧
      List.Chain' evLe (batchLoop env opts d0 bs st).2 := by
  intro bs
  induction bs with
  | nil =>
    intro st hT
    refine ⟨⟨rfl, rfl, List.prefix_refl _⟩, ?_, List.chain'_nil⟩
    intro ev hev
    exact absurd hev (List.not_mem_nil ev)
  | cons b rest ih =>
    intro st hT
    rw [batchLoop]
    split
    · obtain ⟨⟨ihA, ihB, ihC⟩, ihEv, ihCh⟩ :=
        ih (stepState env opts b st) (by rw [stepState_progressTotal]; exact hT)
      have hTot2 : (stepState env opts b st).progressTotal = st.progressTotal :=
        stepState_progressTotal env opts b st
      have hpbT : (processBatch env opts b st).progressTotal = st.progressTotal :=
        (processBatch_spec env opts b st).2.2.1
      refine ⟨⟨ihA.trans hTot2, ihB.trans (stepState_isScanning env opts b st),
        (stepState_extends env opts b st).trans ihC⟩, ?_, ?_⟩
      · intro ev hev
        rcases List.mem_cons.mp hev with rfl | hev2
        · refine ⟨⟨?_, rfl⟩, hpbT, ?_, ?_⟩
          · show (processBatch env opts b st).progressTotal = min d0 opts.maxPosts
            rw [hpbT, hT]
          · show min (processBatch env opts b st).extractedPosts.length
                (processBatch env opts b st).progressTotal ≤ _
            rw [hpbT]
            exact min_le_min ihC.length_le (le_refl _)
          · show _ ≤ min (processBatch env opts b st).extractedPosts.length
                (processBatch env opts b st).progressTotal
            rw [hpbT]
            exact min_le_min (stepState_extends env opts b st).length_le (le_refl _)
        · obtain ⟨he1, he2, he3, he4⟩ := ihEv ev hev2
          refine ⟨he1, he2.trans hTot2, by rw [← hTot2]; exact he3, ?_⟩
          refine le_trans (min_le_min (stepState_extends env opts b st).length_le
            (le_of_eq hTot2.symm)) he4
      · rw [List.chain'_cons']
        refine ⟨?_, ihCh⟩
        intro y hy
        obtain ⟨_, hyt, _, hy4⟩ := ihEv y (List.mem_of_mem_head? hy)
        constructor
        · show min (processBatch env opts b st).extractedPosts.length
              (processBatch env opts b st).progressTotal ≤ y.current
          exact hy4
        · show (processBatch env opts b st).progressTotal ≤ y.total
          rw [hyt]
          exact le_of_eq rfl
    · refine ⟨⟨rfl, rfl, List.prefix_refl _⟩, ?_, List.chain'_nil⟩
      intro ev hev
      exact absurd hev (List.not_mem_nil ev)

end DOMScanner

namespace DOMScanner

open JsStr

theorem lmDiscover_len_mono [DecidableEq α] (env : ScanEnv α)
    (hdom : ∀ k, env.dom k <+: env.dom (k + 1)) (k : Nat) :
    (lmDiscover env k).length ≤ (lmDiscover env (k + 1)).length :=
  (findAllPosts_mono env.valid (hdom k)).length_le

theorem lmState_extends [DecidableEq α] (env : ScanEnv α) (opts : MergedOptions)
    (lpc k : Nat) (st : ScanState) :
    st.extractedPosts <+: (lmState env opts lpc k st).extractedPosts :=
  (processBatch_spec env opts ((lmDiscover env k).drop lpc) st).2.2.2

theorem lmState_isScanning [DecidableEq α] (env : ScanEnv α) (opts : MergedOptions)
    (lpc k : Nat) (st : ScanState) :
    (lmState env opts lpc k st).isScanning = st.isScanning :=
  (processBatch_spec env opts ((lmDiscover env k).drop lpc) st).1

theorem loadMoreLoop_spec [DecidableEq α] (env : ScanEnv α) (opts : MergedOptions)
    (hdom : ∀ k, env.dom k <+: env.dom (k + 1)) :
    ∀ (fuel sa lpc k : Nat) (st : ScanState),
      st.progressTotal ≤ min (lmDiscover env k).length opts.maxPosts →
      (∀ ev ∈ (loadMoreLoop env opts fuel sa lpc k st).2, evOk opts.maxPosts ev) ∧
      (∀ ev ∈ (loadMoreLoop env opts fuel sa lpc k st).2,
        min st.extractedPosts.length st.progressTotal ≤ ev.current ∧
        st.progressTotal ≤ ev.total) ∧
      List.Chain' evLe (loadMoreLoop env opts fuel sa lpc k st).2 := by
  intro fuel
  induction fuel with
  | zero =>
    intro sa lpc k st hInv
    refine ⟨?_, ?_, List.chain'_nil⟩ <;>
      (intro ev hev; exact absurd hev (List.not_mem_nil ev))
  | succ fuel ih =>
    intro sa lpc k st hInv
    rw [loadMoreLoop]
    split
    · split
      · have hInv2 : (lmState env opts lpc k st).progressTotal ≤
            min (lmDiscover env (k + 1)).length opts.maxPosts := by
          show min (lmDiscover env k).length opts.maxPosts ≤ _
          exact min_le_min (lmDiscover_len_mono env hdom k) (le_refl _)
        obtain ⟨ih1, ih2, ih3⟩ :=
          ih 0 (lmDiscover env k).length (k + 1) (lmState env opts lpc k st) hInv2
        refine ⟨?_, ?_, ?_⟩
        · intro ev hev
          rcases List.mem_cons.mp hev with rfl | hev2
          · exact ⟨rfl, rfl⟩
          · exact ih1 ev hev2
        · intro ev hev
          rcases List.mem_cons.mp hev with rfl | hev2
          · constructor
            · show min st.extractedPosts.length st.progressTotal ≤
                min (lmProcess env opts lpc k st).extractedPosts.length
                  (min (lmDiscover env k).length opts.maxPosts)
              exact min_le_min (lmState_extends env opts lpc k st).length_le hInv
            · exact hInv
          · obtain ⟨hb1, hb2⟩ := ih2 ev hev2
            constructor
            · refine le_trans ?_ hb1
              exact min_le_min (lmState_extends env opts lpc k st).length_le hInv
            · exact le_trans hInv hb2
        · rw [List.chain'_cons']
          refine ⟨?_, ih3⟩
          intro y hy
          obtain ⟨hb1, hb2⟩ := ih2 y (List.mem_of_mem_head? hy)
          exact ⟨hb1, hb2⟩
      · have hInv2 : st.progressTotal ≤ min (lmDiscover env (k + 1)).length opts.maxPosts :=
          le_trans hInv (min_le_min (lmDiscover_len_mono env hdom k) (le_refl _))
        exact ih (sa + 1) lpc (k + 1) st hInv2
    · refine ⟨?_, ?_, List.chain'_nil⟩ <;>
        (intro ev hev; exact absurd hev (List.not_mem_nil ev))

end DOMScanner

namespace DOMScanner

open JsStr

/-- Claim C8: under append-only discovery (each `findAllPosts` query result
extends the previous one — the load-more phase only adds containers), every
progress event of a scan started from an idle scanner satisfies
`total = min(discoveredCount, maxPosts)` and
`current = min(extractedSoFar, total)`, and the emitted sequence is
monotonically non-decreasing in both components, across the initial batch
loop and the load-more phase. -/
theorem startScan_progress [DecidableEq α] (env : ScanEnv α) (opts : ScanOptionsIn)
    (fuel : Nat) (st0 : ScanState)
    (hdom : ∀ k, env.dom k <+: env.dom (k + 1))
    (h0 : st0.isScanning = false) :
    (∀ ev ∈ (startScan env opts fuel st0).2.2,
      evOk (mergeScanOptions opts env.settings).maxPosts ev) ∧
    List.Chain' evLe (startScan env opts fuel st0).2.2 := by
  obtain ⟨⟨bA, bB, bC⟩, bEv, bCh⟩ :=
    batchLoop_spec env (mergeScanOptions opts env.settings) (lmDiscover env 0).length
      (chunksOf5 (lmDiscover env 0)) (startState env opts st0) rfl
  rw [startScan, if_neg (by simp [h0])]
  split
  · have hInv : (initialPhase env opts st0).1.progressTotal ≤
        min (lmDiscover env 1).length (mergeScanOptions opts env.settings).maxPosts := by
      have hi : (initialPhase env opts st0).1.progressTotal
          = min (lmDiscover env 0).length (mergeScanOptions opts env.settings).maxPosts := bA
      rw [hi]
      exact min_le_min (lmDiscover_len_mono env hdom 0) (le_refl _)
    obtain ⟨lm1, lm2, lm3⟩ := loadMoreLoop_spec env (mergeScanOptions opts env.settings) hdom
      fuel 0 (initialPhase env opts st0).1.extractedPosts.length 1
      (initialPhase env opts st0).1 hInv
    constructor
    · intro ev hev
      rcases List.mem_append.mp hev with h | h
      · exact (bEv ev h).1
      · exact lm1 ev h
    · rw [List.chain'_append]
      refine ⟨bCh, lm3, ?_⟩
      intro x hx y hy
      have hxmem : x ∈ (initialPhase env opts st0).2 := by
        obtain ⟨hne, rfl⟩ := List.mem_getLast?_eq_getLast hx
        exact List.getLast_mem hne
      obtain ⟨_, hx2, hx3, _⟩ := bEv x hxmem
      obtain ⟨hy1, hy2⟩ := lm2 y (List.mem_of_mem_head? hy)
      constructor
      · refine le_trans hx3 (le_trans (le_of_eq ?_) hy1)
        exact congrArg (min (initialPhase env opts st0).1.extractedPosts.length) bA.symm
      · exact le_trans (le_of_eq (hx2.trans bA.symm)) hy2
  · exact ⟨fun ev hev => (bEv ev hev).1, bCh⟩

/-- Claim C8 witness: a concrete two-round scan whose page gains three
containers before the load-more pass. -/
theorem startScan_progress_witness :
    (∀ ev ∈ (startScan
      (⟨⟨some 3, some true, some true⟩, fun _ => true,
        fun k => if k = 0 then [1, 2] else [1, 2, 3, 4, 5],
        fun n => .ok (some ⟨toString n, ⟨"A"⟩, ⟨[], []⟩, "text"⟩)⟩ : ScanEnv Nat)
      {} 10 ⟨false, 0, 0, []⟩).2.2,
      evOk (mergeScanOptions {}
        (⟨⟨some 3, some true, some true⟩⟩ : Settings)).maxPosts ev) ∧
    List.Chain' evLe ((startScan
      (⟨⟨some 3, some true, some true⟩, fun _ => true,
        fun k => if k = 0 then [1, 2] else [1, 2, 3, 4, 5],
        fun n => .ok (some ⟨toString n, ⟨"A"⟩, ⟨[], []⟩, "text"⟩)⟩ : ScanEnv Nat)
      {} 10 ⟨false, 0, 0, []⟩).2.2) :=
  startScan_progress
    (⟨⟨some 3, some true, some true⟩, fun _ => true,
      fun k => if k = 0 then [1, 2] else [1, 2, 3, 4, 5],
      fun n => .ok (some ⟨toString n, ⟨"A"⟩, ⟨[], []⟩, "text"⟩)⟩ : ScanEnv Nat)
    {} 10 ⟨false, 0, 0, []⟩
    (by
      intro k
      match k with
      | 0 => exact ⟨[3, 4, 5], rfl⟩
      | k + 1 => exact List.prefix_refl _)
    rfl

end DOMScanner
